import Mathlib

set_option maxRecDepth 400000

/-!
Verification development for the VBA binary container codec of this
repository: the chunked byte-stream compression codec
(`tools/vba_project_generator.py`: `compress_vba` / `decompress_vba`,
`tools/create_vba_binary.py`: `vba_compress`) and the compound-container
builder (`tools/create_vba_binary.py`: `CFBFile` and
`generate_vba_project_bin`; `tools/vba_project_generator.py`:
`VBAProjectGenerator._build_directory_entries`).

Byte buffers are modelled as `List Nat` (each element a byte value).
Python `while` loops are modelled as structurally recursive functions on an
explicit fuel argument; every call site passes a fuel value that provably
exceeds the number of iterations the Python loop performs, so the embedded
function computes the same result as the loop.
-/

/-- Little-endian 16-bit serialization, Python struct.pack format <H. -/
def u16le (n : Nat) : List Nat := [n % 256, n / 256 % 256]

/-- Little-endian 32-bit serialization, Python struct.pack format <I. -/
def u32le (n : Nat) : List Nat :=
  [n % 256, n / 256 % 256, n / 65536 % 256, n / 16777216 % 256]

/-- Little-endian 64-bit serialization, Python struct.pack format <Q. -/
def u64le (n : Nat) : List Nat := u32le (n % 4294967296) ++ u32le (n / 4294967296)

/-- Little-endian signed 32-bit serialization (two's complement), Python
struct.pack format <i. -/
def i32le (i : Int) : List Nat := u32le (i % 4294967296).toNat

/-- Byte encoding of a string, Python str.encode with code page 932 (and
the ASCII encodes of the same sources).  On the ASCII range — the only range
exercised in this development — code page 932, ASCII and UTF-8 all agree
with the character's code point, so the encoding is modelled as the code
point of each character. -/
def encodeCp932 (s : String) : List Nat := s.data.map (fun c => c.toNat % 256)

/-- Byte encoding of a string, Python str.encode utf-16-le, restricted to
basic-plane characters (two bytes per character, little-endian). -/
def utf16le (s : String) : List Nat :=
  s.data.flatMap (fun c => [c.toNat % 256, c.toNat / 256 % 256])

/-!
## Byte-stream compression

`compress_vba` (tools/vba_project_generator.py lines 22-76) and
`vba_compress` (tools/create_vba_binary.py lines 19-59) both split the
input into raw chunks of at most 4096 bytes and store every chunk as a
sequence of all-literal token groups: one zero flag byte before each batch
of up to eight literal bytes.
-/

/-- The all-literal chunk body: `_create_literal_chunk` of
tools/create_vba_binary.py, which is also exactly what the inner
`while i < len(chunk_data)` loop of `compress_vba` in
tools/vba_project_generator.py emits (the flag byte placeholder is always
overwritten with the value 0).  Each iteration consumes at least one input
byte, so fuel `data.length` is enough. -/
def literalChunkF : Nat → List Nat → List Nat
  | 0, _ => []
  | _ + 1, [] => []
  | fuel + 1, d => 0 :: (d.take 8 ++ literalChunkF fuel (d.drop 8))

def literalChunk (d : List Nat) : List Nat := literalChunkF d.length d

/-- The chunk loop of `compress_vba` (tools/vba_project_generator.py lines
32-74): each iteration takes up to 4096 raw bytes, builds the all-literal
body, and pairs it with the 2-byte chunk header value
`((len(body) - 1) & 0x0FFF) | 0xB000`.  Fuel `data.length` bounds the
number of chunks. -/
def vbaChunksF : Nat → List Nat → List (Nat × List Nat)
  | 0, _ => []
  | _ + 1, [] => []
  | fuel + 1, d =>
    let body := literalChunk (d.take 4096)
    (((body.length - 1) &&& 0x0FFF) ||| 0xB000, body) ::
      vbaChunksF fuel (d.drop 4096)

def vbaChunks (d : List Nat) : List (Nat × List Nat) := vbaChunksF d.length d

/-- `compress_vba` from tools/vba_project_generator.py: signature byte 0x01,
then for every chunk the 2-byte little-endian header followed by the chunk
body; the empty input returns the fixed two bytes b'\x01\xb0'. -/
def compress_vba (data : List Nat) : List Nat :=
  if data = [] then [0x01, 0xB0]
  else 0x01 :: (vbaChunks data).flatMap (fun hb => u16le hb.1 ++ hb.2)

/-- The chunk loop of `vba_compress` (tools/create_vba_binary.py lines
27-41); identical to `vbaChunksF` except that the header is
`(len(body) - 1) | 0xB000` with no 12-bit mask. -/
def vbaChunksUF : Nat → List Nat → List (Nat × List Nat)
  | 0, _ => []
  | _ + 1, [] => []
  | fuel + 1, d =>
    let body := literalChunk (d.take 4096)
    ((body.length - 1) ||| 0xB000, body) :: vbaChunksUF fuel (d.drop 4096)

def vbaChunksU (d : List Nat) : List (Nat × List Nat) := vbaChunksUF d.length d

/-- `vba_compress` from tools/create_vba_binary.py: signature byte 0x01 then
header/body chunks; the empty input returns just the 1-byte signature. -/
def vba_compress (data : List Nat) : List Nat :=
  if data = [] then [0x01]
  else 0x01 :: (vbaChunksU data).flatMap (fun hb => u16le hb.1 ++ hb.2)

/-!
## Decompression (`decompress_vba`, tools/vba_project_generator.py lines 79-150)

The decoder is modelled as returning `Option (List Nat)`: `none` models the
one way the Python code can raise (a negative `seek` while executing a copy
token whose offset reaches before the start of the output); every other
path returns bytes.
-/

/-- Python `(decompressed_current - 1).bit_length()` where
`decompressed_current` is a non-negative int: `(-1).bit_length()` is 1. -/
def copyBitLength (current : Nat) : Nat :=
  if current = 0 then 1 else Nat.size (current - 1)

/-- The copy loop of a copy token (tools/vba_project_generator.py lines
138-144): `length` single-byte reads starting at absolute output position
`start`, appending each byte read to the growing output.  A read past the
current end of the output reads b'' and appends nothing; a negative start
makes `seek` raise (`none`). -/
def copyLoop : Nat → List Nat → Int → Option (List Nat)
  | 0, out, _ => some out
  | len + 1, out, start =>
    if start < 0 then none
    else
      let out' := if start.toNat < out.length then out ++ [out.getD start.toNat 0] else out
      copyLoop len out' (start + 1)

/-- The `for bit in range(8)` token loop (tools/vba_project_generator.py
lines 117-148).  Successive bits of the flag byte are taken by repeated
halving (`(flag >> bit) & 1` for bit = 0,1,…).  Returns the grown output
and the unconsumed remainder of the chunk. -/
def tokenLoop : Nat → Nat → List Nat → List Nat → Nat → Option (List Nat × List Nat)
  | 0, _, chunk, out, _ => some (out, chunk)
  | _ + 1, _, [], out, _ => some (out, [])
  | bits + 1, flag, c :: chunk, out, dstart =>
    if flag % 2 = 1 then
      match chunk with
      | [] => some (out, c :: chunk)
      | c2 :: rest =>
        let token := c + 256 * c2
        let current := out.length - dstart
        let bitCount := max 4 (copyBitLength current)
        let lengthMask := (1 <<< (16 - bitCount)) - 1
        -- Python: offset_mask = ~length_mask & 0xFFFF, the high (16 - bitCount) bits
        let offsetMask := 0xFFFF - lengthMask
        let length := (token &&& lengthMask) + 3
        let offset := ((token &&& offsetMask) >>> (16 - bitCount)) + 1
        match copyLoop length out ((out.length : Int) - offset) with
        | none => none
        | some out' => tokenLoop bits (flag / 2) rest out' dstart
    else
      tokenLoop bits (flag / 2) chunk (out ++ [c]) dstart

/-- The `while chunk_pos < len(chunk_data)` loop over flag-byte groups
(tools/vba_project_generator.py lines 110-148).  Each iteration consumes at
least the flag byte, so fuel `chunk.length` is enough. -/
def chunkLoopF : Nat → List Nat → List Nat → Nat → Option (List Nat)
  | 0, _, out, _ => some out
  | _ + 1, [], out, _ => some out
  | fuel + 1, f :: rest, out, dstart =>
    match tokenLoop 8 f rest out dstart with
    | none => none
    | some (out', rest') => chunkLoopF fuel rest' out' dstart

/-- Decode one compressed chunk appended to the output produced so far;
`decompressed_start` is the output length at chunk entry. -/
def decompressChunk (chunk out : List Nat) : Option (List Nat) :=
  chunkLoopF chunk.length chunk out out.length

/-- The outer `while pos < len(data)` loop of `decompress_vba`
(tools/vba_project_generator.py lines 87-148): stop when fewer than two
bytes remain, else read the little-endian header, clamp the declared chunk
size to the remaining bytes, and decode the chunk as raw or compressed
according to bit 15 of the header.  Each iteration consumes at least the
two header bytes, so fuel `rest.length + 1` is enough. -/
def decompressLoopF : Nat → List Nat → List Nat → Option (List Nat)
  | 0, _, out => some out
  | _ + 1, [], out => some out
  | _ + 1, [_], out => some out
  | fuel + 1, b0 :: b1 :: rest, out =>
    let header := b0 + 256 * b1
    let declared := header % 4096 + 1
    let csize := if rest.length < declared then rest.length else declared
    let chunk := rest.take csize
    let res :=
      if header &&& 0x8000 = 0 then some (out ++ chunk)
      else decompressChunk chunk out
    match res with
    | none => none
    | some out' => decompressLoopF fuel (rest.drop csize) out'

/-- `decompress_vba` from tools/vba_project_generator.py.  An empty input or
an input whose first byte is not the signature 0x01 is returned unchanged
(no error). -/
def decompress_vba (data : List Nat) : Option (List Nat) :=
  match data with
  | [] => some []
  | b :: rest => if b ≠ 1 then some (b :: rest) else decompressLoopF (rest.length + 1) rest []



/-!
## Compound container builder (`CFBFile`, tools/create_vba_binary.py)

The builder state is a list of directory entries plus the accumulated
sector-padded stream bytes.  The sibling-chain walk of `_add_sibling` is a
Python `while` loop over indices; it is modelled with a fuel argument set to
the number of directory entries, which exceeds the length of any sibling
chain the builder ever creates.
-/

def ENDOFCHAIN : Nat := 0xFFFFFFFE
def FREESECT : Nat := 0xFFFFFFFF
def FATSECT : Nat := 0xFFFFFFFD

/-- `DirEntry` dataclass of tools/create_vba_binary.py (lines 66-80);
`size` is `len(data)`. -/
structure DirEntry where
  name : String
  entry_type : Nat
  data : List Nat := []
  color : Nat := 1
  left_sibling : Int := -1
  right_sibling : Int := -1
  child : Int := -1
  start_sector : Nat := 0
deriving DecidableEq, Inhabited

/-- The mutable state of a `CFBFile` instance: `dir_entries` and the
`stream_data` buffer. -/
structure CFBState where
  dir_entries : List DirEntry
  stream_data : List Nat
deriving DecidableEq, Inhabited

/-- `CFBFile._add_sibling` (lines 153-158): walk the right-sibling chain
from `sib` and set the first free `right_sibling` to `new`. -/
def addSibling : List DirEntry → Nat → Nat → Int → List DirEntry
  | entries, 0, _, _ => entries
  | entries, fuel + 1, sib, new =>
    let e := entries.getD sib default
    if e.right_sibling = -1 then entries.set sib { e with right_sibling := new }
    else addSibling entries fuel e.right_sibling.toNat new

/-- The common linking step of `add_storage` / `add_stream`: make `idx` the
parent's child when the parent has none, else append it to the sibling chain
of the parent's first child. -/
def linkChild (entries : List DirEntry) (parent idx : Nat) : List DirEntry :=
  let e := entries.getD parent default
  if e.child = -1 then entries.set parent { e with child := (idx : Int) }
  else addSibling entries entries.length e.child.toNat (idx : Int)

/-- `CFBFile.add_root` (lines 98-104). -/
def add_root (s : CFBState) : CFBState :=
  { s with dir_entries := s.dir_entries ++ [{ name := "Root Entry", entry_type := 5 }] }

/-- `CFBFile.add_storage` (lines 106-120); returns the new entry index. -/
def add_storage (s : CFBState) (name : String) (parent : Nat) : CFBState × Nat :=
  let idx := s.dir_entries.length
  let entries := s.dir_entries ++ [{ name := name, entry_type := 1 }]
  ({ s with dir_entries := linkChild entries parent idx }, idx)

/-- `CFBFile.add_stream` (lines 122-151): record the starting sector as
`2 + currentPos / 512` (one FAT sector and one directory sector assumed),
append the data padded to a sector boundary, append the entry, and link it
under the parent. -/
def add_stream (s : CFBState) (name : String) (data : List Nat) (parent : Nat) :
    CFBState × Nat :=
  let idx := s.dir_entries.length
  let start_sector := 2 + s.stream_data.length / 512
  let pad := 512 - data.length % 512
  let sdata := s.stream_data ++ data ++ (if pad < 512 then List.replicate pad 0 else [])
  let entries := s.dir_entries ++
    [{ name := name, entry_type := 2, data := data, start_sector := start_sector }]
  ({ dir_entries := linkChild entries parent idx, stream_data := sdata }, idx)

/-- `CFBFile._make_dir_entry` (lines 295-342): 128-byte serialized entry. -/
def cfb_make_dir_entry (e : DirEntry) : List Nat :=
  let nameBytes := utf16le (e.name ++ "\x00")
  (nameBytes.take 64 ++ List.replicate (64 - (nameBytes.take 64).length) 0) ++
  u16le (min nameBytes.length 64) ++
  [e.entry_type % 256] ++
  [e.color % 256] ++
  i32le e.left_sibling ++ i32le e.right_sibling ++ i32le e.child ++
  List.replicate 16 0 ++
  u32le 0 ++
  List.replicate 8 0 ++ List.replicate 8 0 ++
  u32le (if e.entry_type = 2 ∧ 0 < e.data.length then e.start_sector else 0) ++
  u64le e.data.length

/-- `CFBFile._make_empty_entry` (lines 344-357). -/
def cfb_make_empty_entry : List Nat :=
  List.replicate 64 0 ++ u16le 0 ++ [0] ++ [1] ++
  i32le (-1) ++ i32le (-1) ++ i32le (-1) ++
  List.replicate 16 0 ++ u32le 0 ++ List.replicate 16 0 ++ u32le 0 ++ u64le 0

/-- Zero-padding up to the next 512-byte boundary
(`while tell() % 512 != 0: write(b'\x00')`). -/
def padTo512 (l : List Nat) : List Nat :=
  l ++ List.replicate ((512 - l.length % 512) % 512) 0

/-- `CFBFile._build_directory` (lines 275-293): serialized entries, then
empty entries up to `dir_sectors * 4` slots, then sector padding. -/
def cfb_build_directory (entries : List DirEntry) (dir_sectors : Nat) : List Nat :=
  padTo512 (entries.flatMap cfb_make_dir_entry ++
    (List.replicate (dir_sectors * 4 - entries.length) cfb_make_empty_entry).flatten)

/-- `CFBFile._build_fat` (lines 241-273): FAT sectors marked `FATSECT`, one
sequential chain over all directory sectors, one sequential chain over all
stream sectors, then `FREESECT` fill up to `fat_sectors * 512` bytes (the
fill loop writes nothing when the entries already overflow that size). -/
def cfb_build_fat (fat_sectors dir_sectors stream_sectors : Nat) : List Nat :=
  (List.replicate fat_sectors FATSECT ++
   (List.range dir_sectors).map
     (fun i => if i < dir_sectors - 1 then fat_sectors + i + 1 else ENDOFCHAIN) ++
   (List.range stream_sectors).map
     (fun i => if i < stream_sectors - 1 then fat_sectors + dir_sectors + i + 1
       else ENDOFCHAIN) ++
   List.replicate (128 * fat_sectors - (fat_sectors + dir_sectors + stream_sectors))
     FREESECT).flatMap u32le

/-- `CFBFile._build_header` (lines 193-239): the 512-byte header; the
`dir_sectors` argument is taken (as in the source) but unused. -/
def cfb_build_header (fat_sectors dir_sectors : Nat) : List Nat :=
  [0xD0, 0xCF, 0x11, 0xE0, 0xA1, 0xB1, 0x1A, 0xE1] ++
  List.replicate 16 0 ++
  u16le 0x003E ++ u16le 0x0003 ++ u16le 0xFFFE ++ u16le 9 ++ u16le 6 ++
  List.replicate 6 0 ++
  u32le 0 ++ u32le fat_sectors ++ u32le fat_sectors ++ u32le 0 ++
  u32le 4096 ++ u32le ENDOFCHAIN ++ u32le 0 ++ u32le ENDOFCHAIN ++ u32le 0 ++
  (List.range 109).flatMap (fun i => u32le (if i < fat_sectors then i else FREESECT))

/-- `dir_sectors` as computed in `CFBFile.build` (line 164). -/
def dirSectorsOf (s : CFBState) : Nat := (s.dir_entries.length * 128 + 512 - 1) / 512

/-- `stream_sectors` as computed in `CFBFile.build` (line 167). -/
def streamSectorsOf (s : CFBState) : Nat :=
  if s.stream_data = [] then 0 else (s.stream_data.length + 512 - 1) / 512

/-- Total sector count `fat + dir + stream` of `CFBFile.build` (line 171). -/
def totalSectorsOf (s : CFBState) : Nat := 1 + dirSectorsOf s + streamSectorsOf s

/-- `CFBFile.build` (lines 160-191): header, FAT, directory, then the
stream bytes with a final sector padding (a no-op when `stream_data` is
already sector-aligned, which `add_stream` guarantees). -/
def CFBFile_build (s : CFBState) : List Nat :=
  let header := cfb_build_header 1 (dirSectorsOf s)
  let fat := cfb_build_fat 1 (dirSectorsOf s) (streamSectorsOf s)
  let directory := cfb_build_directory s.dir_entries (dirSectorsOf s)
  let result := header ++ fat ++ directory
  if s.stream_data = [] then result
  else
    let pad := 512 - s.stream_data.length % 512
    result ++ s.stream_data ++ (if pad < 512 then List.replicate pad 0 else [])

/-!
## Project metadata streams (tools/create_vba_binary.py lines 364-532)
-/

/-- `_write_module_record` (lines 434-475). -/
def module_record_bytes (name : String) : List Nat :=
  let nameBytes := encodeCp932 name
  let nameUnicode := utf16le name
  u16le 0x0019 ++ u32le nameBytes.length ++ nameBytes ++
  u16le 0x0047 ++ u32le nameUnicode.length ++ nameUnicode ++
  u16le 0x001A ++ u32le nameBytes.length ++ nameBytes ++
  u16le 0x0032 ++ u32le nameUnicode.length ++ nameUnicode ++
  u16le 0x001C ++ u32le 0 ++
  u16le 0x0048 ++ u32le 0 ++
  u16le 0x0031 ++ u32le 4 ++ u32le 0 ++
  u16le 0x001E ++ u32le 4 ++ u32le 0 ++
  u16le 0x002C ++ u32le 2 ++ u16le 0xFFFF ++
  u16le 0x0021 ++ u32le 0 ++
  u16le 0x002B ++ u32le 0

/-- The record stream written by `create_dir_stream` (lines 364-431) before
compression.  The module map is modelled as an ordered list of
(name, source) pairs, matching Python dict iteration order. -/
def dir_stream_raw (modules : List (String × String)) : List Nat :=
  u16le 0x0001 ++ u32le 4 ++ u32le 1 ++
  u16le 0x0002 ++ u32le 4 ++ u32le 0x0411 ++
  u16le 0x0014 ++ u32le 4 ++ u32le 0x0411 ++
  u16le 0x0003 ++ u32le 2 ++ u16le 932 ++
  u16le 0x0004 ++ u32le 10 ++ encodeCp932 "VBAProject" ++
  u16le 0x0005 ++ u32le 0 ++ u16le 0x0040 ++ u32le 0 ++
  u16le 0x0006 ++ u32le 0 ++ u16le 0x003D ++ u32le 0 ++
  u16le 0x0007 ++ u32le 4 ++ u32le 0 ++
  u16le 0x0008 ++ u32le 4 ++ u32le 0 ++
  u16le 0x0009 ++ u32le 4 ++ u32le 0x00010001 ++
  u16le 0x000C ++ u32le 0 ++ u16le 0x003C ++ u32le 0 ++
  u16le 0x000F ++ u32le 2 ++ u16le modules.length ++
  u16le 0x0013 ++ u32le 2 ++ u16le 0xFFFF ++
  modules.flatMap (fun m => module_record_bytes m.1) ++
  u16le 0x0010 ++ u32le 0

/-- `create_dir_stream` (line 431): the compressed record stream. -/
def create_dir_stream (modules : List (String × String)) : List Nat :=
  vba_compress (dir_stream_raw modules)

/-- `create_vba_project_stream` (lines 478-485). -/
def create_vba_project_stream : List Nat := [0xCC, 0x61, 0, 0, 0, 0, 0, 0]

/-- `create_project_stream` (lines 488-513).  The source draws a fresh
random GUID with `uuid.uuid4()` on every call; that draw is made an
explicit `guid` argument here, so one call of the Python function
corresponds to one choice of `guid`. -/
def create_project_stream (modules : List (String × String)) (guid : String) :
    List Nat :=
  encodeCp932 (String.intercalate "\r\n" (
    ["ID=\"\x7b" ++ guid ++ "\x7d\""] ++
    modules.map (fun m => "Module=" ++ m.1) ++
    ["Name=\"VBAProject\"",
     "HelpContextID=\"0\"",
     "VersionCompatible32=\"393222000\"",
     "CMG=\"0705030503050305\"",
     "DPB=\"0E0CD11CD11CD1\"",
     "GC=\"1517131713171317\"",
     "",
     "[Host Extender Info]",
     "&H00000001=\x7b3832D640-CF90-11CF-8E43-00A0C911005A\x7d;VBE;&H00000000",
     "",
     "[Workspace]"]))

/-- `create_projectwm_stream` (lines 516-523). -/
def create_projectwm_stream (modules : List (String × String)) : List Nat :=
  modules.flatMap (fun m => encodeCp932 m.1 ++ [0] ++ utf16le m.1 ++ [0, 0]) ++ [0, 0]

/-- Python `str.strip()`: remove leading and trailing whitespace (modelled
on the character list of the string). -/
def pyStrip (l : List Char) : List Char :=
  ((l.dropWhile Char.isWhitespace).reverse.dropWhile Char.isWhitespace).reverse

/-- Python `str.startswith(p)` (modelled on character lists). -/
def listStartsWith : List Char → List Char → Bool
  | _, [] => true
  | [], _ :: _ => false
  | a :: l, b :: p => a == b && listStartsWith l p

/-- The `Attribute VB_Name` header line prepended to module sources; the
same f-string appears in `create_module_stream` (create_vba_binary.py line
530) and `_create_module_stream` (vba_project_generator.py line 305). -/
def attrHeader (name : String) : String :=
  "Attribute VB_Name = \"" ++ name ++ "\"\r\n"

/-- `create_module_stream` (tools/create_vba_binary.py lines 526-532):
prepends the attribute line when the whitespace-stripped source does not
start with "Attribute". -/
def create_module_stream (name code : String) : List Nat :=
  vba_compress (encodeCp932 (
    if listStartsWith (pyStrip code.data) "Attribute".data then code
    else attrHeader name ++ code))

/-- `_create_module_stream` (tools/vba_project_generator.py lines 300-311):
prepends the attribute line when the source does not start with
"Attribute VB_Name". -/
def pg_create_module_stream (name code : String) : List Nat :=
  compress_vba (encodeCp932 (
    if listStartsWith code.data "Attribute VB_Name".data then code
    else attrHeader name ++ code))

/-- Module-stream text as described by the spec sentence for C9 (stated
from the spec's words, for comparison with the implementations): the source
text "with a one-line attribute header naming the module prepended exactly
when the source text does not already begin with such an attribute line". -/
def specModuleText (name code : String) : String :=
  if listStartsWith code.data "Attribute VB_Name".data then code
  else attrHeader name ++ code

/-- `generate_vba_project_bin` (lines 535-561), state construction part:
root entry, `VBA` storage, `dir` and `_VBA_PROJECT` streams, one stream per
module, then `PROJECT` and `PROJECTwm` under the root. -/
def buildState (modules : List (String × String)) (guid : String) : CFBState :=
  let s0 := add_root { dir_entries := [], stream_data := [] }
  let p1 := add_storage s0 "VBA" 0
  let s2 := (add_stream p1.1 "dir" (create_dir_stream modules) p1.2).1
  let s3 := (add_stream s2 "_VBA_PROJECT" create_vba_project_stream p1.2).1
  let s4 := modules.foldl
    (fun st m => (add_stream st m.1 (create_module_stream m.1 m.2) p1.2).1) s3
  let s5 := (add_stream s4 "PROJECT" (create_project_stream modules guid) 0).1
  (add_stream s5 "PROJECTwm" (create_projectwm_stream modules) 0).1

/-- `generate_vba_project_bin` (lines 535-561). -/
def generate_vba_project_bin (modules : List (String × String)) (guid : String) :
    List Nat :=
  CFBFile_build (buildState modules guid)

/-!
## Observers for the claims: FAT chains and directory reachability
-/

/-- Little-endian 32-bit FAT entry number `i` of a serialized FAT. -/
def fatEntryAt (fat : List Nat) (i : Nat) : Nat :=
  fat.getD (4 * i) 0 + 256 * fat.getD (4 * i + 1) 0 +
    65536 * fat.getD (4 * i + 2) 0 + 16777216 * fat.getD (4 * i + 3) 0

/-- Follow the FAT from sector `s`, collecting the chain until an
`ENDOFCHAIN` entry (or until fuel runs out); the claimed chain notion of
the FAT-chain-closure property. -/
def followChain (fat : List Nat) : Nat → Nat → List Nat
  | 0, _ => []
  | fuel + 1, s =>
    s :: (if fatEntryAt fat s = ENDOFCHAIN then []
      else followChain fat fuel (fatEntryAt fat s))

/-- Child/sibling traversal of a directory-entry link table
(left sibling, right sibling, child) from entry `i`: the entry itself, then
its child subtree, then the left- and right-sibling subtrees.  Fuel bounds
the recursion depth; `length + 1` suffices for every table built here. -/
def reachFrom (links : List (Int × Int × Int)) : Nat → Int → List Nat
  | 0, _ => []
  | fuel + 1, i =>
    if 0 ≤ i ∧ i.toNat < links.length then
      let e := links.getD i.toNat (-1, -1, -1)
      i.toNat :: (reachFrom links fuel e.2.2 ++ reachFrom links fuel e.1 ++
        reachFrom links fuel e.2.1)
    else []

/-- The link triple (left sibling, right sibling, child) of a `DirEntry`. -/
def entryLinks (e : DirEntry) : Int × Int × Int :=
  (e.left_sibling, e.right_sibling, e.child)

def linksOf (entries : List DirEntry) : List (Int × Int × Int) :=
  entries.map entryLinks

/-!
## The second builder: `VBAProjectGenerator._build_directory_entries`
(tools/vba_project_generator.py lines 517-540)
-/

/-- One `_create_dir_entry` call of tools/vba_project_generator.py (lines
542-587), keeping the arguments that matter structurally: name, object
type, the three links, and the stream size. -/
structure PgEntry where
  name : String
  etype : Nat
  left : Int
  right : Int
  child : Int
  size : Nat
deriving DecidableEq, Inhabited

/-- `_build_directory_entries` (lines 517-540): a Root entry with child 1,
a `VBA` storage entry with right sibling 2 and no child, then one Stream
entry per stream with all links -1. -/
def pg_build_directory_entries (streams : List (String × List Nat)) : List PgEntry :=
  { name := "Root Entry", etype := 0x05, left := -1, right := -1, child := 1, size := 0 } ::
  { name := "VBA", etype := 0x01, left := -1, right := 2, child := -1, size := 0 } ::
  streams.map (fun nd =>
    { name := (nd.1.splitOn "/").getLastD nd.1, etype := 0x02,
      left := -1, right := -1, child := -1, size := nd.2.length })

def pgLinks (es : List PgEntry) : List (Int × Int × Int) :=
  es.map (fun e => (e.left, e.right, e.child))

/-- The stream-name insertion order of `_generate_ole_compound`
(tools/vba_project_generator.py lines 373-397). -/
def pg_stream_names (modules : List (String × String)) : List String :=
  ["VBA/dir", "VBA/_VBA_PROJECT"] ++
  modules.map (fun m => "VBA/" ++ m.1) ++ ["PROJECT", "PROJECTwm"]



/-- A fixed GUID draw used as a concrete input in several theorems. -/
def guid0 : String := "00000000-0000-0000-0000-000000000000"

/-- A second, distinct GUID draw. -/
def guid1 : String := "11111111-1111-1111-1111-111111111111"


/-- Arithmetic form of the length of the chunked compressed output for an
input of the given length (same fuel convention as `vbaChunksUF`): each
chunk contributes a 2-byte header plus an all-literal body of
`chunkLen + ceil(chunkLen / 8)` bytes. -/
def compLenF : Nat → Nat → Nat
  | 0, _ => 0
  | fuel + 1, L =>
    if L = 0 then 0
    else 2 + (min 4096 L + (min 4096 L + 7) / 8) + compLenF fuel (L - 4096)

/-- A 52-module map whose built container needs 136 sectors, used as a
concrete input. -/
def ms52 : List (String × String) :=
  (List.range 52).map (fun i => ("M" ++ toString i, String.mk (List.replicate 700 'A')))


/-- Link-field accessors for a directory-entry list. -/
def childOf (es : List DirEntry) (i : Nat) : Int := (es.getD i default).child

def leftOf (es : List DirEntry) (i : Nat) : Int := (es.getD i default).left_sibling

def rightOf (es : List DirEntry) (i : Nat) : Int := (es.getD i default).right_sibling

/-- The link invariant the builder maintains while module streams are added
under the `VBA` storage: root 0 points at storage 1, storage 1 points at
entry 2, and entries 2..k+3 form one right-sibling chain. -/
def ChainInv (es : List DirEntry) (k : Nat) : Prop :=
  es.length = k + 4 ∧
  childOf es 0 = 1 ∧ leftOf es 0 = -1 ∧ rightOf es 0 = -1 ∧
  childOf es 1 = 2 ∧ leftOf es 1 = -1 ∧ rightOf es 1 = -1 ∧
  ∀ j, 2 ≤ j → j < k + 4 →
    childOf es j = -1 ∧ leftOf es j = -1 ∧
    rightOf es j = if j = k + 3 then -1 else (j : Int) + 1

/-! DEFINITIONS-END -/

/-!
## Lemmas and claim theorems: compression codec (C1, C2, C3, C8)
-/

theorem vbaChunksF_nil (fuel : Nat) : vbaChunksF fuel [] = [] := by
  cases fuel <;> rfl

theorem literalChunkF_length :
    ∀ (fuel : Nat) (l : List Nat), l.length ≤ fuel →
      (literalChunkF fuel l).length = l.length + (l.length + 7) / 8 := by
  intro fuel
  induction fuel with
  | zero =>
    intro l hl
    have : l = [] := List.eq_nil_of_length_eq_zero (by omega)
    subst this; rfl
  | succ fuel ih =>
    intro l hl
    match l with
    | [] => rfl
    | a :: l' =>
      have hl' : l'.length + 1 ≤ fuel + 1 := by simpa using hl
      have hrec := ih ((a :: l').drop 8)
        (by simp only [List.length_drop, List.length_cons]; omega)
      simp only [literalChunkF, List.length_cons, List.length_append,
        List.length_take, List.length_drop] at *
      omega

theorem literalChunkF_replicate :
    ∀ (fuel k : Nat), k ≤ fuel →
      literalChunkF fuel (List.replicate k 0) =
        List.replicate (k + (k + 7) / 8) 0 := by
  intro fuel
  induction fuel with
  | zero =>
    intro k hk
    have : k = 0 := by omega
    subst this; rfl
  | succ fuel ih =>
    intro k hk
    match k with
    | 0 => rfl
    | k' + 1 =>
      rw [List.replicate_succ]
      show (0 : Nat) :: ((0 :: List.replicate k' 0).take 8 ++
          literalChunkF fuel ((0 :: List.replicate k' 0).drop 8)) = _
      rw [← List.replicate_succ, List.take_replicate, List.drop_replicate,
        ih (k' + 1 - 8) (by omega)]
      rw [show (k' + 1 + (k' + 1 + 7) / 8) =
        (min 8 (k' + 1) + (k' + 1 - 8 + (k' + 1 - 8 + 7) / 8)) + 1 by omega]
      rw [List.replicate_succ, ← List.replicate_add]


theorem literalChunk_replicate_3641 :
    literalChunk (List.replicate 3641 0) = List.replicate 4097 0 := by
  show literalChunkF (List.replicate 3641 0).length (List.replicate 3641 0) = _
  rw [List.length_replicate, literalChunkF_replicate 3641 3641 (by omega)]

theorem vbaChunksF_cons (fuel a : Nat) (l : List Nat) :
    vbaChunksF (fuel + 1) (a :: l) =
      (((literalChunk ((a :: l).take 4096)).length - 1 &&& 0x0FFF) ||| 0xB000,
        literalChunk ((a :: l).take 4096)) :: vbaChunksF fuel ((a :: l).drop 4096) := rfl

theorem vbaChunks_replicate_3641 :
    vbaChunks (List.replicate 3641 0) = [(0xB000, List.replicate 4097 0)] := by
  show vbaChunksF (List.replicate 3641 0).length (List.replicate 3641 0) = _
  rw [List.length_replicate, List.replicate_succ, vbaChunksF_cons,
    ← List.replicate_succ, List.take_replicate, List.drop_replicate]
  norm_num [literalChunk_replicate_3641, vbaChunksF_nil, List.length_replicate]
  decide

theorem compress_vba_replicate_3641 :
    compress_vba (List.replicate 3641 0) =
      1 :: 0 :: 176 :: List.replicate 4097 0 := by
  have hne : List.replicate 3641 0 ≠ ([] : List Nat) := by
    intro h
    have h2 := congrArg List.length h
    rw [List.length_replicate] at h2
    exact absurd h2 (by norm_num)
  rw [compress_vba, if_neg hne, vbaChunks_replicate_3641]
  rw [List.flatMap_cons, List.flatMap_nil, List.append_nil]
  rfl

theorem decompressLoopF_nil (fuel : Nat) (out : List Nat) :
    decompressLoopF fuel [] out = some out := by
  cases fuel <;> rfl

theorem decompressLoopF_one (fuel b : Nat) (out : List Nat) :
    decompressLoopF fuel [b] out = some out := by
  cases fuel <;> rfl

theorem decompressLoopF_cons2 (fuel b0 b1 : Nat) (rest out : List Nat) :
    decompressLoopF (fuel + 1) (b0 :: b1 :: rest) out =
      (let header := b0 + 256 * b1
       let declared := header % 4096 + 1
       let csize := if rest.length < declared then rest.length else declared
       let chunk := rest.take csize
       let res :=
         if header &&& 0x8000 = 0 then some (out ++ chunk)
         else decompressChunk chunk out
       match res with
       | none => none
       | some out' => decompressLoopF fuel (rest.drop csize) out') := rfl

theorem decompressLoopF_cons2_raw (fuel b0 b1 : Nat) (rest out : List Nat)
    (h : (b0 + 256 * b1) &&& 0x8000 = 0) :
    decompressLoopF (fuel + 1) (b0 :: b1 :: rest) out =
      decompressLoopF fuel
        (rest.drop (if rest.length < (b0 + 256 * b1) % 4096 + 1 then rest.length
          else (b0 + 256 * b1) % 4096 + 1))
        (out ++ rest.take (if rest.length < (b0 + 256 * b1) % 4096 + 1 then rest.length
          else (b0 + 256 * b1) % 4096 + 1)) := by
  rw [decompressLoopF_cons2]
  simp only []
  rw [if_pos h]

theorem decompressLoopF_cons2_comp (fuel b0 b1 : Nat) (rest out : List Nat)
    (h : ¬ ((b0 + 256 * b1) &&& 0x8000 = 0)) :
    decompressLoopF (fuel + 1) (b0 :: b1 :: rest) out =
      (match decompressChunk
          (rest.take (if rest.length < (b0 + 256 * b1) % 4096 + 1 then rest.length
            else (b0 + 256 * b1) % 4096 + 1)) out with
       | none => none
       | some out' =>
         decompressLoopF fuel
           (rest.drop (if rest.length < (b0 + 256 * b1) % 4096 + 1 then rest.length
             else (b0 + 256 * b1) % 4096 + 1)) out') := by
  rw [decompressLoopF_cons2]
  simp only []
  rw [if_neg h]

/-- Decoding an all-zero byte suffix: every loop iteration reads the header
0x0000, declares an uncompressed chunk of one byte, and copies it; three
input bytes produce one output byte. -/
theorem decompressLoopF_zeros :
    ∀ (fuel m : Nat) (out : List Nat), m ≤ fuel →
      decompressLoopF fuel (List.replicate m 0) out =
        some (out ++ List.replicate (m / 3) 0) := by
  intro fuel
  induction fuel with
  | zero =>
    intro m out hm
    have : m = 0 := by omega
    subst this
    simp [decompressLoopF_nil]
  | succ fuel ih =>
    intro m out hm
    match m with
    | 0 => simp [decompressLoopF_nil]
    | 1 =>
      rw [show List.replicate 1 (0:Nat) = [0] from rfl, decompressLoopF_one]
      simp
    | 2 =>
      rw [show List.replicate 2 (0:Nat) = 0 :: 0 :: [] from rfl,
        decompressLoopF_cons2_raw fuel 0 0 [] out (by decide)]
      simp [decompressLoopF_nil]
    | m' + 3 =>
      rw [show List.replicate (m' + 3) (0:Nat) = 0 :: 0 :: List.replicate (m' + 1) 0
          from rfl, decompressLoopF_cons2_raw fuel 0 0 _ out (by decide)]
      simp only [List.length_replicate, show (0 + 256 * 0 : Nat) % 4096 + 1 = 1 from rfl]
      rw [if_neg (by omega), List.take_replicate, List.drop_replicate]
      have hmin : min 1 (m' + 1) = 1 := by omega
      have hdrop : m' + 1 - 1 = m' := by omega
      rw [hmin, hdrop, ih m' (out ++ List.replicate 1 0) (by omega)]
      rw [List.append_assoc, ← List.replicate_add]
      have h3 : 1 + m' / 3 = (m' + 3) / 3 := by omega
      rw [h3]

theorem decompress_vba_cons (b : Nat) (rest : List Nat) :
    decompress_vba (b :: rest) =
      if b ≠ 1 then some (b :: rest) else decompressLoopF (rest.length + 1) rest [] := rfl

theorem decompress_compress_replicate_3641 :
    decompress_vba (compress_vba (List.replicate 3641 0)) =
      some (List.replicate 1365 0) := by
  rw [compress_vba_replicate_3641, decompress_vba_cons, if_neg (by omega)]
  simp only [List.length_cons, List.length_replicate]
  rw [show (4097 + 1 + 1 + 1 : Nat) = 4099 + 1 by norm_num,
    decompressLoopF_cons2_comp 4099 0 176 _ [] (by decide)]
  simp only [List.length_replicate, show (0 + 256 * 176 : Nat) % 4096 + 1 = 1 from rfl]
  rw [if_neg (by omega), List.take_replicate, List.drop_replicate]
  rw [show min 1 4097 = 1 from by omega, show (4097 - 1 : Nat) = 4096 from rfl]
  rw [show decompressChunk (List.replicate 1 0) [] = some [] from rfl]
  show decompressLoopF 4099 (List.replicate 4096 0) [] = some (List.replicate 1365 0)
  rw [decompressLoopF_zeros 4099 4096 [] (by omega)]
  rw [List.nil_append, show (4096 / 3 : Nat) = 1365 from rfl]

theorem header_bits (L : Nat) :
    ((((L - 1) &&& 4095) ||| 45056) &&& 4095) = (L - 1) % 4096 ∧
    (((L - 1) &&& 4095) ||| 45056) / 4096 = 11 := by
  have hmod : (L - 1) &&& 4095 = (L - 1) % 4096 := by
    have := Nat.and_pow_two_sub_one_eq_mod (L - 1) 12
    norm_num at this
    exact this
  have hr : (L - 1) % 4096 < 4096 := Nat.mod_lt _ (by norm_num)
  have hor : ((L - 1) % 4096) ||| 45056 = 45056 + (L - 1) % 4096 := by
    rw [Nat.lor_comm]
    have := Nat.mul_add_lt_is_or (i := 12) (b := (L - 1) % 4096) (by norm_num [hr]) 11
    norm_num at this
    exact this.symm
  rw [hmod, hor]
  constructor
  · have := Nat.and_pow_two_sub_one_eq_mod (45056 + (L - 1) % 4096) 12
    norm_num at this
    rw [this]
    omega
  · omega

theorem vbaChunksF_mem :
    ∀ (fuel : Nat) (d : List Nat) (hb : Nat × List Nat), d.length ≤ fuel →
      hb ∈ vbaChunksF fuel d →
      2 ≤ hb.2.length ∧ hb.2.length ≤ 4608 ∧
        hb.1 = ((hb.2.length - 1) &&& 4095) ||| 45056 := by
  intro fuel
  induction fuel with
  | zero =>
    intro d hb hd hm
    simp [vbaChunksF] at hm
  | succ fuel ih =>
    intro d hb hd hm
    match d with
    | [] => simp [vbaChunksF] at hm
    | a :: l =>
      rw [vbaChunksF_cons] at hm
      rcases List.mem_cons.mp hm with hhead | htail
      · subst hhead
        have hlen1 : 1 ≤ ((a :: l).take 4096).length := by
          simp only [List.length_take, List.length_cons]
          omega
        have hlen2 : ((a :: l).take 4096).length ≤ 4096 := by
          simp only [List.length_take, List.length_cons]
          omega
        have hbody : (literalChunk ((a :: l).take 4096)).length =
            ((a :: l).take 4096).length + (((a :: l).take 4096).length + 7) / 8 :=
          literalChunkF_length _ _ (Nat.le_refl _)
        refine ⟨?_, ?_, rfl⟩
        · show 2 ≤ (literalChunk ((a :: l).take 4096)).length
          omega
        · show (literalChunk ((a :: l).take 4096)).length ≤ 4608
          omega
      · have hd' : ((a :: l).drop 4096).length ≤ fuel := by
          simp only [List.length_drop, List.length_cons] at *
          omega
        exact ih _ _ hd' htail

/-- C1: For every byte buffer b, decompress(compress(b)) = b.  The code
violates this: for the 3641-byte all-zero buffer the all-literal chunk body
is 4097 bytes long, the 12-bit size field of the chunk header overflows
(`(4097 - 1) & 0x0FFF = 0`), and decompression reads the truncated declared
size, yielding a 1365-byte result instead of the input. -/
theorem c1_roundtrip_bug :
    decompress_vba (compress_vba (List.replicate 3641 0)) =
      some (List.replicate 1365 0) ∧
    decompress_vba (compress_vba (List.replicate 3641 0)) ≠
      some (List.replicate 3641 0) := by
  refine ⟨decompress_compress_replicate_3641, ?_⟩
  rw [decompress_compress_replicate_3641]
  intro h
  injection h with h'
  have := congrArg List.length h'
  rw [List.length_replicate, List.length_replicate] at this
  omega

/-- C2 counterexample: for the 3641-byte all-zero input, the single chunk
emitted by `compress_vba` has body length 4097, but the low 12 bits of its
header are 0, not 4096 = bodyLength - 1. -/
theorem c2_header_counterexample :
    ((vbaChunks (List.replicate 3641 0)).headI.1 &&& 0x0FFF) ≠
      (vbaChunks (List.replicate 3641 0)).headI.2.length - 1 := by
  rw [vbaChunks_replicate_3641]
  simp only [List.headI, List.length_replicate]
  decide

/-- C2 (amended): each chunk header of `compress_vba` stores
`(bodyLength - 1) mod 4096` in its low 12 bits — equal to `bodyLength - 1`
exactly when `bodyLength ≤ 4096`, which fails for raw chunks longer than
3640 bytes — and the signature value 0xB in its high 4 bits; and the decoder
does not reject a header whose declared size exceeds the remaining buffer,
it clamps the size to the remaining bytes and decodes those (witnessed by
the 1-byte-remainder input below decoding to `some []`). -/
theorem c2_chunk_header_amended :
    (∀ (data : List Nat), data ≠ [] → ∀ hb ∈ vbaChunks data,
        (hb.1 &&& 0x0FFF) = (hb.2.length - 1) % 4096 ∧
        hb.1 / 4096 = 0xB ∧
        (hb.2.length ≤ 4096 → (hb.1 &&& 0x0FFF) = hb.2.length - 1)) ∧
    decompress_vba [1, 255, 176, 65] = some [] := by
  constructor
  · intro data _ hb hm
    obtain ⟨h2, h4608, hform⟩ := vbaChunksF_mem data.length data hb (Nat.le_refl _) hm
    obtain ⟨hlow, hhigh⟩ := header_bits hb.2.length
    rw [hform]
    refine ⟨hlow, hhigh, ?_⟩
    intro hle
    rw [hlow]
    omega
  · decide

theorem c2_chunk_header_amended_witness :
    (([7] : List Nat) ≠ []) ∧
    ((vbaChunks [7]).headI ∈ vbaChunks [7]) ∧
    (((vbaChunks [7]).headI.1 &&& 0x0FFF) =
      ((vbaChunks [7]).headI.2.length - 1) % 4096) :=
  ⟨by decide, by decide,
    (c2_chunk_header_amended.1 [7] (by decide) (vbaChunks [7]).headI (by decide)).1⟩

/-- C3: the claim says malformed input yields a decode error.  The code
instead returns the input unchanged when the signature byte is not 0x01,
and returns the partial decode when a declared chunk size overruns the
remaining buffer: no error is raised on either malformed input. -/
theorem c3_no_decode_error_bug :
    decompress_vba [0, 7, 9] = some [0, 7, 9] ∧
    decompress_vba [1, 5, 176, 0, 65] = some [65] := by
  constructor <;> decide

/-- C8 counterexample: `compress_vba` applied to the empty buffer does not
return exactly the 1-byte signature: it returns the signature followed by a
spurious second byte 0xB0. -/
theorem c8_empty_counterexample :
    compress_vba [] ≠ [1] ∧ (compress_vba []).length = 2 := by
  constructor <;> decide

/-- C8 (amended): on the empty buffer, `vba_compress` returns exactly the
1-byte signature and zero chunks, while `compress_vba` returns the signature
followed by a dangling extra byte 0xB0 (a truncated chunk header which the
decoder ignores); in both cases decompressing the output returns the empty
buffer. -/
theorem c8_empty_compress_amended :
    vba_compress [] = [1] ∧
    compress_vba [] = [1, 176] ∧
    decompress_vba (vba_compress []) = some [] ∧
    decompress_vba (compress_vba []) = some [] := by
  refine ⟨by decide, by decide, by decide, by decide⟩

/-!
## Lemmas and claim theorems: container builder (C4, C5, C7)
-/

theorem length_addSibling (entries : List DirEntry) :
    ∀ (fuel sib : Nat) (new : Int),
      (addSibling entries fuel sib new).length = entries.length := by
  intro fuel
  induction fuel with
  | zero => intro sib new; rfl
  | succ fuel ih =>
    intro sib new
    rw [addSibling]
    split
    · rw [List.length_set]
    · rw [ih]

theorem length_linkChild (entries : List DirEntry) (parent idx : Nat) :
    (linkChild entries parent idx).length = entries.length := by
  rw [linkChild]
  split
  · rw [List.length_set]
  · rw [length_addSibling]

theorem add_stream_entries_length (s : CFBState) (name : String) (data : List Nat)
    (parent : Nat) :
    ((add_stream s name data parent).1).dir_entries.length =
      s.dir_entries.length + 1 := by
  show (linkChild (s.dir_entries ++ [_]) _ _).length = _
  rw [length_linkChild, List.length_append, List.length_cons, List.length_nil]

theorem add_storage_entries_length (s : CFBState) (name : String) (parent : Nat) :
    ((add_storage s name parent).1).dir_entries.length = s.dir_entries.length + 1 := by
  show (linkChild (s.dir_entries ++ [_]) _ _).length = _
  rw [length_linkChild, List.length_append, List.length_cons, List.length_nil]

theorem add_stream_stream_data (s : CFBState) (name : String) (data : List Nat)
    (parent : Nat) :
    ((add_stream s name data parent).1).stream_data =
      s.stream_data ++ data ++
        (if 512 - data.length % 512 < 512
         then List.replicate (512 - data.length % 512) 0 else []) := rfl

theorem add_stream_stream_data_length (s : CFBState) (name : String)
    (data : List Nat) (parent : Nat) :
    ((add_stream s name data parent).1).stream_data.length =
      s.stream_data.length + data.length + (512 - data.length % 512) % 512 := by
  rw [add_stream_stream_data]
  by_cases h : data.length % 512 = 0
  · rw [if_neg (by omega)]
    simp only [List.length_append, List.length_nil]
    omega
  · rw [if_pos (by omega)]
    simp only [List.length_append, List.length_replicate]
    omega

theorem foldl_add_stream_entries_length (parent : Nat) :
    ∀ (ms : List (String × String)) (st : CFBState),
      ((ms.foldl (fun st m =>
          (add_stream st m.1 (create_module_stream m.1 m.2) parent).1) st)).dir_entries.length =
        st.dir_entries.length + ms.length := by
  intro ms
  induction ms with
  | nil => intro st; rfl
  | cons m ms ih =>
    intro st
    rw [List.foldl_cons, ih, add_stream_entries_length, List.length_cons]
    omega

theorem foldl_add_stream_stream_data_length (parent : Nat) :
    ∀ (ms : List (String × String)) (st : CFBState),
      ((ms.foldl (fun st m =>
          (add_stream st m.1 (create_module_stream m.1 m.2) parent).1) st)).stream_data.length =
        st.stream_data.length +
          (ms.map (fun m => (create_module_stream m.1 m.2).length +
            (512 - (create_module_stream m.1 m.2).length % 512) % 512)).sum := by
  intro ms
  induction ms with
  | nil => intro st; simp
  | cons m ms ih =>
    intro st
    rw [List.foldl_cons, ih, add_stream_stream_data_length, List.map_cons, List.sum_cons]
    omega

theorem buildState_entries_length (ms : List (String × String)) (guid : String) :
    (buildState ms guid).dir_entries.length = ms.length + 6 := by
  show ((add_stream _ _ _ _).1).dir_entries.length = _
  rw [add_stream_entries_length, add_stream_entries_length,
    foldl_add_stream_entries_length, add_stream_entries_length,
    add_stream_entries_length, add_storage_entries_length]
  have h0 : (add_root { dir_entries := [], stream_data := [] }).dir_entries.length = 1 := rfl
  rw [h0]
  omega

theorem buildState_stream_data_length (ms : List (String × String)) (guid : String) :
    (buildState ms guid).stream_data.length =
      (create_dir_stream ms).length + (512 - (create_dir_stream ms).length % 512) % 512 +
      512 +
      (ms.map (fun m => (create_module_stream m.1 m.2).length +
        (512 - (create_module_stream m.1 m.2).length % 512) % 512)).sum +
      (create_project_stream ms guid).length +
        (512 - (create_project_stream ms guid).length % 512) % 512 +
      (create_projectwm_stream ms).length +
        (512 - (create_projectwm_stream ms).length % 512) % 512 := by
  show ((add_stream _ _ _ _).1).stream_data.length = _
  rw [add_stream_stream_data_length, add_stream_stream_data_length,
    foldl_add_stream_stream_data_length, add_stream_stream_data_length,
    add_stream_stream_data_length]
  have h0 : (add_storage (add_root { dir_entries := [], stream_data := [] })
      "VBA" 0).1.stream_data.length = 0 := rfl
  have h8 : create_vba_project_stream.length = 8 := rfl
  rw [h0, h8]
  omega

/-- C5: the claim says each stream's FAT chain has length
ceil(streamByteLength / 512) and ends at its own END_OF_CHAIN.  In the
container built for the empty module map, the `_VBA_PROJECT` stream (8
bytes, so the claimed chain length is 1) has recorded start sector 3, and
following the FAT from there yields the chain [3, 4, 5, 6] of length 4: the
FAT chains all stream sectors into one run that only terminates at the last
stream sector, and the recorded start sectors are computed with a hardcoded
single directory sector, so they are also off by one. -/
theorem c5_fat_chain_bug :
    ((buildState [] guid0).dir_entries.getD 3 default).name = "_VBA_PROJECT" ∧
    ((buildState [] guid0).dir_entries.getD 3 default).entry_type = 2 ∧
    ((buildState [] guid0).dir_entries.getD 3 default).data.length = 8 ∧
    ((buildState [] guid0).dir_entries.getD 3 default).start_sector = 3 ∧
    followChain
      (cfb_build_fat 1 (dirSectorsOf (buildState [] guid0))
        (streamSectorsOf (buildState [] guid0))) 16
      ((buildState [] guid0).dir_entries.getD 3 default).start_sector =
        [3, 4, 5, 6] ∧
    (followChain
      (cfb_build_fat 1 (dirSectorsOf (buildState [] guid0))
        (streamSectorsOf (buildState [] guid0))) 16
      ((buildState [] guid0).dir_entries.getD 3 default).start_sector).length ≠
      (((buildState [] guid0).dir_entries.getD 3 default).data.length + 512 - 1) / 512 := by
  have hdir : dirSectorsOf (buildState [] guid0) = 2 := by
    rw [dirSectorsOf, buildState_entries_length]
    norm_num
  have hsd : (buildState [] guid0).stream_data.length = 2048 := by
    rw [buildState_stream_data_length]
    have e1 : (create_dir_stream []).length = 163 := by decide
    have e2 : (create_project_stream [] guid0).length = 288 := by decide
    have e3 : (create_projectwm_stream []).length = 2 := by decide
    rw [e1, e2, e3]
    norm_num
  have hne : (buildState [] guid0).stream_data ≠ [] := by
    intro h
    rw [h] at hsd
    simp at hsd
  have hstr : streamSectorsOf (buildState [] guid0) = 4 := by
    rw [streamSectorsOf, if_neg hne, hsd]
  rw [hdir, hstr]
  refine ⟨by decide, by decide, by decide, by decide, by decide, ?_⟩
  have h1 : followChain (cfb_build_fat 1 2 4) 16
      ((buildState [] guid0).dir_entries.getD 3 default).start_sector = [3, 4, 5, 6] := by
    decide
  have h2 : ((buildState [] guid0).dir_entries.getD 3 default).data.length = 8 := by
    decide
  rw [h1, h2]
  decide

/-- C7: the claim says a module map with two entries named "Module1" makes
the build fail with an EncodeError.  Neither source file defines an
EncodeError or checks for duplicate names; the build happily returns a
container with two `Module1` streams (8 directory entries in total). -/
theorem c7_duplicate_name_bug :
    generate_vba_project_bin [("Module1", "A"), ("Module1", "B")] guid0 ≠ [] ∧
    (buildState [("Module1", "A"), ("Module1", "B")] guid0).dir_entries.length = 8 := by
  constructor
  · decide
  · rw [buildState_entries_length]
    norm_num

theorem length_u16le (n : Nat) : (u16le n).length = 2 := rfl

theorem length_u32le (n : Nat) : (u32le n).length = 4 := rfl

theorem length_u64le (n : Nat) : (u64le n).length = 8 := rfl

theorem length_i32le (i : Int) : (i32le i).length = 4 := rfl

theorem length_cfb_make_dir_entry (e : DirEntry) :
    (cfb_make_dir_entry e).length = 128 := by
  rw [cfb_make_dir_entry]
  simp only [List.length_append, List.length_take, List.length_replicate,
    List.length_cons, List.length_nil, length_u16le, length_u32le, length_u64le,
    length_i32le]
  omega

theorem length_cfb_make_empty_entry : cfb_make_empty_entry.length = 128 := rfl

theorem length_padTo512 (l : List Nat) :
    (padTo512 l).length = l.length + (512 - l.length % 512) % 512 := by
  rw [padTo512, List.length_append, List.length_replicate]

theorem length_flatten_replicate_empty (k : Nat) :
    ((List.replicate k cfb_make_empty_entry).flatten).length = k * 128 := by
  induction k with
  | zero => rfl
  | succ k ih =>
    rw [List.replicate_succ, List.flatten_cons, List.length_append, ih,
      length_cfb_make_empty_entry]
    omega

theorem length_flatMap_dir_entries (es : List DirEntry) :
    (es.flatMap cfb_make_dir_entry).length = es.length * 128 := by
  induction es with
  | nil => rfl
  | cons e es ih =>
    rw [List.flatMap_cons, List.length_append, ih, length_cfb_make_dir_entry,
      List.length_cons]
    omega

theorem length_flatMap_four {α : Type} (g : α → List Nat)
    (hg : ∀ x, (g x).length = 4) :
    ∀ (l : List α), (l.flatMap g).length = l.length * 4 := by
  intro l
  induction l with
  | nil => rfl
  | cons x l ih =>
    rw [List.flatMap_cons, List.length_append, ih, hg, List.length_cons]
    omega

theorem length_cfb_build_directory (es : List DirEntry) (d : Nat)
    (h : es.length ≤ d * 4) :
    (cfb_build_directory es d).length = d * 512 := by
  rw [cfb_build_directory, length_padTo512, List.length_append,
    length_flatMap_dir_entries, length_flatten_replicate_empty]
  omega

theorem length_cfb_build_fat (f d s : Nat) :
    (cfb_build_fat f d s).length = 4 * (f + d + s + (128 * f - (f + d + s))) := by
  rw [cfb_build_fat, length_flatMap_four u32le length_u32le]
  simp only [List.length_append, List.length_replicate, List.length_map,
    List.length_range]
  omega

theorem length_cfb_build_header (f d : Nat) :
    (cfb_build_header f d).length = 512 := by
  rw [cfb_build_header]
  simp only [List.length_append, List.length_replicate, List.length_cons,
    List.length_nil, length_u16le, length_u32le]
  rw [length_flatMap_four (fun i => u32le (if i < f then i else FREESECT))
    (fun i => length_u32le _), List.length_range]

theorem buildState_nil_stream_length (g : String)
    (hg : (create_project_stream [] g).length = 288) :
    (buildState [] g).stream_data.length = 2048 := by
  rw [buildState_stream_data_length, hg]
  have e1 : (create_dir_stream []).length = 163 := by decide
  have e3 : (create_projectwm_stream []).length = 2 := by decide
  rw [e1, e3]
  norm_num

theorem buildState_nil_ne_nil (g : String)
    (hg : (create_project_stream [] g).length = 288) :
    (buildState [] g).stream_data ≠ [] := by
  intro h
  have := buildState_nil_stream_length g hg
  rw [h] at this
  simp at this

theorem dirSectorsOf_buildState_nil (g : String) :
    dirSectorsOf (buildState [] g) = 2 := by
  rw [dirSectorsOf, buildState_entries_length]
  norm_num

theorem streamSectorsOf_buildState_nil (g : String)
    (hg : (create_project_stream [] g).length = 288) :
    streamSectorsOf (buildState [] g) = 4 := by
  rw [streamSectorsOf, if_neg (buildState_nil_ne_nil g hg),
    buildState_nil_stream_length g hg]

theorem CFBFile_build_of_aligned (s : CFBState)
    (h : s.stream_data.length % 512 = 0) (hne : s.stream_data ≠ []) :
    CFBFile_build s =
      cfb_build_header 1 (dirSectorsOf s) ++
      cfb_build_fat 1 (dirSectorsOf s) (streamSectorsOf s) ++
      cfb_build_directory s.dir_entries (dirSectorsOf s) ++ s.stream_data := by
  rw [CFBFile_build]
  simp only []
  rw [if_neg hne, if_neg (by omega), List.append_nil]

theorem buildState_nil_stream_decomp (g : String)
    (hg : (create_project_stream [] g).length = 288) :
    (buildState [] g).stream_data =
      ((add_stream (add_stream (add_storage (add_root
          { dir_entries := [], stream_data := [] }) "VBA" 0).1 "dir"
          (create_dir_stream []) 1).1 "_VBA_PROJECT"
          create_vba_project_stream 1).1).stream_data ++
      (create_project_stream [] g ++ List.replicate 224 0) ++
      (create_projectwm_stream [] ++ List.replicate 510 0) := by
  rw [buildState]
  simp only [List.foldl_nil]
  rw [add_stream_stream_data, add_stream_stream_data]
  rw [hg]
  have e3 : (create_projectwm_stream []).length = 2 := by decide
  rw [e3]
  norm_num
  rfl

/-- C4 counterexample: two invocations of the build on the identical empty
module map, but with the two distinct project GUIDs the `uuid.uuid4()` call
draws, produce different byte buffers (they differ inside the PROJECT
stream). -/
theorem c4_determinism_counterexample :
    generate_vba_project_bin [] guid0 ≠ generate_vba_project_bin [] guid1 := by
  have hg0 : (create_project_stream [] guid0).length = 288 := by decide
  have hg1 : (create_project_stream [] guid1).length = 288 := by decide
  intro heq
  rw [generate_vba_project_bin, generate_vba_project_bin,
    CFBFile_build_of_aligned _ (by rw [buildState_nil_stream_length guid0 hg0])
      (buildState_nil_ne_nil guid0 hg0),
    CFBFile_build_of_aligned _ (by rw [buildState_nil_stream_length guid1 hg1])
      (buildState_nil_ne_nil guid1 hg1),
    dirSectorsOf_buildState_nil, dirSectorsOf_buildState_nil,
    streamSectorsOf_buildState_nil guid0 hg0,
    streamSectorsOf_buildState_nil guid1 hg1] at heq
  simp only [List.append_assoc] at heq
  have h3 := List.append_cancel_left (List.append_cancel_left heq)
  have hlen6 : (buildState [] guid0).dir_entries.length = 6 := by
    rw [buildState_entries_length]
    rfl
  have hlen6' : (buildState [] guid1).dir_entries.length = 6 := by
    rw [buildState_entries_length]
    rfl
  have h4 := (List.append_inj h3 (by
    rw [length_cfb_build_directory _ _ (by rw [hlen6]; omega),
      length_cfb_build_directory _ _ (by rw [hlen6']; omega)])).2
  rw [buildState_nil_stream_decomp guid0 hg0,
    buildState_nil_stream_decomp guid1 hg1] at h4
  simp only [List.append_assoc] at h4
  have h5 := List.append_cancel_left h4
  have h6 := (List.append_inj h5 (by rw [hg0, hg1])).1
  have : create_project_stream [] guid0 ≠ create_project_stream [] guid1 := by
    decide
  exact this h6

/-- C4 (amended): the build is a pure function of the module map and the
generated project GUID: two invocations with identical module maps,
identical insertion order and the same GUID draw produce byte-identical
output.  (The original claim fails because each invocation draws a fresh
random GUID; see the counterexample.) -/
theorem c4_determinism_amended :
    ∀ (ms : List (String × String)) (g1 g2 : String), g1 = g2 →
      generate_vba_project_bin ms g1 = generate_vba_project_bin ms g2 := by
  intro ms g1 g2 h
  rw [h]

theorem c4_determinism_amended_witness :
    guid0 = guid0 ∧
    generate_vba_project_bin [("Module1", "Sub Foo()")] guid0 =
      generate_vba_project_bin [("Module1", "Sub Foo()")] guid0 :=
  ⟨rfl, c4_determinism_amended [("Module1", "Sub Foo()")] guid0 guid0 rfl⟩

/-!
## Lemmas and claim theorems: module streams and sector alignment (C9, C10)
-/

/-- C9 counterexample: for a source that begins with an attribute line that
is not the module-naming attribute, `create_module_stream` compresses the
source unchanged, so the stream is not the compressed form of the text the
claim specifies (source with the module-naming header prepended). -/
theorem c9_module_stream_counterexample :
    create_module_stream "M" "Attribute VB_Base = 0" =
      vba_compress (encodeCp932 "Attribute VB_Base = 0") ∧
    vba_compress (encodeCp932 "Attribute VB_Base = 0") ≠
      vba_compress (encodeCp932 (specModuleText "M" "Attribute VB_Base = 0")) := by
  constructor
  · decide
  · decide

/-- C9 (amended): `_create_module_stream` (vba_project_generator.py)
prepends the module-naming attribute header exactly when the source does
not start with "Attribute VB_Name", matching the claim's condition; but
`create_module_stream` (create_vba_binary.py) prepends only when the
whitespace-stripped source does not start with "Attribute" (any attribute),
so a source beginning with a non-naming attribute line is compressed
unchanged, without a module-naming header. -/
theorem c9_module_stream_amended :
    ∀ (name code : String),
      pg_create_module_stream name code =
        compress_vba (encodeCp932 (specModuleText name code)) ∧
      create_module_stream name code =
        vba_compress (encodeCp932 (
          if listStartsWith (pyStrip code.data) "Attribute".data then code
          else attrHeader name ++ code)) := by
  intro name code
  exact ⟨rfl, rfl⟩

theorem vbaChunksUF_cons (fuel a : Nat) (l : List Nat) :
    vbaChunksUF (fuel + 1) (a :: l) =
      (((literalChunk ((a :: l).take 4096)).length - 1) ||| 0xB000,
        literalChunk ((a :: l).take 4096)) :: vbaChunksUF fuel ((a :: l).drop 4096) := rfl

theorem length_vbaChunksUF_flat :
    ∀ (fuel : Nat) (d : List Nat), d.length ≤ fuel →
      ((vbaChunksUF fuel d).flatMap (fun hb => u16le hb.1 ++ hb.2)).length =
        compLenF fuel d.length := by
  intro fuel
  induction fuel with
  | zero =>
    intro d hd
    have : d = [] := List.eq_nil_of_length_eq_zero (by omega)
    subst this
    rfl
  | succ fuel ih =>
    intro d hd
    match d with
    | [] => rfl
    | a :: l =>
      rw [vbaChunksUF_cons, List.flatMap_cons, List.length_append,
        List.length_append,
        ih _ (by simp only [List.length_drop, List.length_cons] at *; omega)]
      have hbody : (literalChunk ((a :: l).take 4096)).length =
          ((a :: l).take 4096).length + (((a :: l).take 4096).length + 7) / 8 :=
        literalChunkF_length _ _ (Nat.le_refl _)
      rw [show compLenF (fuel + 1) (a :: l).length =
          if (a :: l).length = 0 then 0
          else 2 + (min 4096 (a :: l).length + (min 4096 (a :: l).length + 7) / 8) +
            compLenF fuel ((a :: l).length - 4096) from rfl]
      rw [if_neg (by simp)]
      simp only [List.length_drop, List.length_take, List.length_cons,
        length_u16le] at *
      omega

theorem length_vba_compress (d : List Nat) (h : d ≠ []) :
    (vba_compress d).length = 1 + compLenF d.length d.length := by
  rw [vba_compress, if_neg h, List.length_cons, vbaChunksU,
    length_vbaChunksUF_flat d.length d (Nat.le_refl _)]
  omega

theorem length_encodeCp932 (s : String) : (encodeCp932 s).length = s.data.length :=
  List.length_map _ _

theorem length_flatMap_pair (l : List Char) :
    (l.flatMap (fun c => [c.toNat % 256, c.toNat / 256 % 256])).length =
      2 * l.length := by
  induction l with
  | nil => rfl
  | cons c l ih =>
    rw [List.flatMap_cons, List.length_append, ih]
    simp only [List.length_cons, List.length_nil]
    omega

theorem length_utf16le (s : String) : (utf16le s).length = 2 * s.data.length := by
  rw [utf16le, length_flatMap_pair]

theorem length_module_record_bytes (name : String) :
    (module_record_bytes name).length = 76 + 6 * name.data.length := by
  rw [module_record_bytes]
  simp only [List.length_append, length_u16le, length_u32le,
    length_encodeCp932, length_utf16le]
  omega

theorem length_records_flatMap (ms : List (String × String)) :
    (ms.flatMap (fun m => module_record_bytes m.1)).length =
      (ms.map (fun m => 76 + 6 * m.1.data.length)).sum := by
  induction ms with
  | nil => rfl
  | cons m ms ih =>
    rw [List.flatMap_cons, List.length_append, ih, length_module_record_bytes,
      List.map_cons, List.sum_cons]

theorem length_dir_stream_raw (ms : List (String × String)) :
    (dir_stream_raw ms).length =
      142 + (ms.map (fun m => 76 + 6 * m.1.data.length)).sum := by
  rw [dir_stream_raw]
  simp only [List.length_append, length_u16le, length_u32le, length_encodeCp932]
  rw [length_records_flatMap]
  have h10 : ("VBAProject" : String).data.length = 10 := rfl
  rw [h10]
  omega

theorem dir_stream_raw_ne_nil (ms : List (String × String)) :
    dir_stream_raw ms ≠ [] := by
  intro h
  have := congrArg List.length h
  rw [length_dir_stream_raw] at this
  simp at this

theorem stream_pad_sum_mod (ms : List (String × String)) :
    ((ms.map (fun m => (create_module_stream m.1 m.2).length +
      (512 - (create_module_stream m.1 m.2).length % 512) % 512)).sum) % 512 = 0 := by
  induction ms with
  | nil => rfl
  | cons m ms ih =>
    rw [List.map_cons, List.sum_cons]
    omega

theorem buildState_stream_mod (ms : List (String × String)) (guid : String) :
    (buildState ms guid).stream_data.length % 512 = 0 := by
  rw [buildState_stream_data_length]
  have hs := stream_pad_sum_mod ms
  omega

theorem buildState_stream_pos (ms : List (String × String)) (guid : String) :
    512 ≤ (buildState ms guid).stream_data.length := by
  rw [buildState_stream_data_length]
  omega

theorem buildState_stream_ne (ms : List (String × String)) (guid : String) :
    (buildState ms guid).stream_data ≠ [] := by
  intro h
  have := buildState_stream_pos ms guid
  rw [h] at this
  simp at this

/-- C10 (amended): for every module map whose container needs at most 128
total sectors (the capacity of the single FAT sector the builder
allocates), the output length is the non-zero multiple of 512 given by
512 * (1 + FAT/directory/stream sectors), and the first 512 bytes are
exactly the header sector.  (Beyond 128 sectors the FAT region overflows
its sector and alignment fails; see the counterexample.) -/
theorem c10_sector_alignment_amended :
    ∀ (ms : List (String × String)) (guid : String),
      totalSectorsOf (buildState ms guid) ≤ 128 →
      (generate_vba_project_bin ms guid).length =
        512 * (1 + totalSectorsOf (buildState ms guid)) ∧
      0 < (generate_vba_project_bin ms guid).length ∧
      (generate_vba_project_bin ms guid).take 512 =
        cfb_build_header 1 (dirSectorsOf (buildState ms guid)) := by
  intro ms guid htot
  have hmod := buildState_stream_mod ms guid
  have hne := buildState_stream_ne ms guid
  have hpos := buildState_stream_pos ms guid
  have hstr : streamSectorsOf (buildState ms guid) =
      (buildState ms guid).stream_data.length / 512 := by
    rw [streamSectorsOf, if_neg hne]
    omega
  have hdirle : (buildState ms guid).dir_entries.length ≤
      dirSectorsOf (buildState ms guid) * 4 := by
    rw [dirSectorsOf, buildState_entries_length]
    omega
  have hlen : (generate_vba_project_bin ms guid).length =
      512 * (1 + totalSectorsOf (buildState ms guid)) := by
    rw [generate_vba_project_bin, CFBFile_build_of_aligned _ hmod hne]
    simp only [List.length_append]
    rw [length_cfb_build_header, length_cfb_build_fat,
      length_cfb_build_directory _ _ hdirle]
    rw [totalSectorsOf] at htot ⊢
    rw [hstr] at htot ⊢
    omega
  refine ⟨hlen, by rw [hlen]; omega, ?_⟩
  rw [generate_vba_project_bin, CFBFile_build_of_aligned _ hmod hne]
  simp only [List.append_assoc]
  rw [← length_cfb_build_header 1 (dirSectorsOf (buildState ms guid))]
  exact List.take_left _ _

theorem c10_sector_alignment_witness :
    totalSectorsOf (buildState [("Module1", "Sub Foo()")] guid0) ≤ 128 ∧
    (generate_vba_project_bin [("Module1", "Sub Foo()")] guid0).length =
      512 * (1 + totalSectorsOf (buildState [("Module1", "Sub Foo()")] guid0)) := by
  have hsd : (buildState [("Module1", "Sub Foo()")] guid0).stream_data.length
      = 2560 := by
    rw [buildState_stream_data_length]
    have e1 : (create_dir_stream [("Module1", "Sub Foo()")]).length = 296 := by
      decide
    have e2 : ([("Module1", "Sub Foo()")].map
        (fun m => (create_module_stream m.1 m.2).length +
          (512 - (create_module_stream m.1 m.2).length % 512) % 512)).sum = 512 := by
      decide
    have e3 : (create_project_stream [("Module1", "Sub Foo()")] guid0).length
        = 304 := by decide
    have e4 : (create_projectwm_stream [("Module1", "Sub Foo()")]).length
        = 26 := by decide
    rw [e1, e2, e3, e4]
  have htot : totalSectorsOf (buildState [("Module1", "Sub Foo()")] guid0) ≤ 128 := by
    rw [totalSectorsOf, dirSectorsOf, buildState_entries_length, streamSectorsOf,
      if_neg (buildState_stream_ne _ _), hsd]
    norm_num
  exact ⟨htot, (c10_sector_alignment_amended [("Module1", "Sub Foo()")] guid0 htot).1⟩

/-- C10 counterexample: a 52-module map needs 136 sectors; the single FAT
sector the builder allocates overflows, the FAT region becomes 544 bytes
long, and the output length 70176 is not a multiple of 512. -/
theorem c10_sector_alignment_counterexample :
    (generate_vba_project_bin ms52 guid0).length % 512 ≠ 0 := by
  have hsum : (ms52.map (fun m => 76 + 6 * m.1.data.length)).sum = 4828 := by
    decide
  have hraw : (dir_stream_raw ms52).length = 4970 := by
    rw [length_dir_stream_raw, hsum]
  have hdirlen : (create_dir_stream ms52).length = 5597 := by
    rw [create_dir_stream, length_vba_compress _ (dir_stream_raw_ne_nil ms52),
      hraw]
    decide
  have hsd : (buildState ms52 guid0).stream_data.length = 61440 := by
    rw [buildState_stream_data_length, hdirlen]
    have e2 : (ms52.map
        (fun m => (create_module_stream m.1 m.2).length +
          (512 - (create_module_stream m.1 m.2).length % 512) % 512)).sum
        = 53248 := by decide
    have e3 : (create_project_stream ms52 guid0).length = 902 := by decide
    have e4 : (create_projectwm_stream ms52).length = 596 := by decide
    rw [e2, e3, e4]
  have hne := buildState_stream_ne ms52 guid0
  have hdirS : dirSectorsOf (buildState ms52 guid0) = 15 := by
    rw [dirSectorsOf, buildState_entries_length]
    decide
  have hstrS : streamSectorsOf (buildState ms52 guid0) = 120 := by
    rw [streamSectorsOf, if_neg hne, hsd]
  have hdirle : (buildState ms52 guid0).dir_entries.length ≤
      dirSectorsOf (buildState ms52 guid0) * 4 := by
    rw [hdirS, buildState_entries_length]
    decide
  rw [generate_vba_project_bin,
    CFBFile_build_of_aligned _ (by rw [hsd]) hne]
  simp only [List.length_append]
  rw [length_cfb_build_header, length_cfb_build_fat,
    length_cfb_build_directory _ _ hdirle, hdirS, hstrS, hsd]
  norm_num

/-!
## C6: directory reachability

`CFBFile` links every new entry under its parent: the invariant `ChainInv`
describes the single sibling chain under the `VBA` storage while module
streams are added, and is propagated through the build; the two root-level
streams `PROJECT` and `PROJECTwm` are then appended to the Root child
chain.  The traversal observer `reachFrom` visits every entry exactly
once.  The second builder, `_build_directory_entries`, leaves every stream
entry's links at -1 and so orphans all entries after the first.
-/

theorem getD_append_left {α : Type} [Inhabited α] (l r : List α) (n : Nat)
    (h : n < l.length) (d : α) : (l ++ r).getD n d = l.getD n d := by
  induction l generalizing n with
  | nil => simp at h
  | cons a l ih =>
    match n with
    | 0 => rfl
    | n + 1 =>
      show (l ++ r).getD n d = l.getD n d
      exact ih n (by simp at h; omega)

theorem getD_append_length {α : Type} (l : List α) (x : α) (d : α) :
    (l ++ [x]).getD l.length d = x := by
  induction l with
  | nil => rfl
  | cons a l ih => exact ih

theorem getD_set_self {α : Type} (l : List α) (n : Nat) (a d : α)
    (h : n < l.length) : (l.set n a).getD n d = a := by
  induction l generalizing n with
  | nil => simp at h
  | cons b l ih =>
    match n with
    | 0 => rfl
    | n + 1 => exact ih n (by simp at h; omega)

theorem getD_set_ne {α : Type} (l : List α) (m n : Nat) (a d : α)
    (h : m ≠ n) : (l.set m a).getD n d = l.getD n d := by
  induction l generalizing m n with
  | nil => simp [List.set]
  | cons b l ih =>
    match m, n with
    | 0, 0 => omega
    | 0, k + 1 => rfl
    | j + 1, 0 => rfl
    | j + 1, k + 1 => exact ih j k (by omega)

theorem addSibling_chain (es : List DirEntry) (new : Int) :
    ∀ (fuel b a : Nat), a ≤ b → b < es.length → b - a < fuel →
      (∀ j, a ≤ j → j < b → rightOf es j = (j : Int) + 1) →
      rightOf es b = -1 →
      addSibling es fuel a new =
        es.set b { es.getD b default with right_sibling := new } := by
  intro fuel
  induction fuel with
  | zero => intro b a _ _ h; omega
  | succ fuel ih =>
    intro b a hab hb hfuel hchain hend
    rw [addSibling]
    simp only []
    rcases Nat.eq_or_lt_of_le hab with heq | hlt
    · subst heq
      simp only [rightOf] at hend
      rw [if_pos hend]
    · have h1 : rightOf es a = (a : Int) + 1 := hchain a (Nat.le_refl a) hlt
      simp only [rightOf] at h1
      rw [h1, if_neg (by omega)]
      have h2 : ((a : Int) + 1).toNat = a + 1 := by omega
      rw [h2]
      exact ih b (a + 1) (by omega) hb (by omega)
        (fun j hj1 hj2 => hchain j (by omega) hj2) hend

theorem ChainInv_add_stream (s : CFBState) (k : Nat) (nm : String) (dat : List Nat)
    (h : ChainInv s.dir_entries k) :
    ChainInv ((add_stream s nm dat 1).1).dir_entries (k + 1) := by
  simp only [ChainInv, childOf, leftOf, rightOf] at h ⊢
  obtain ⟨hlen, h0c, h0l, h0r, h1c, h1l, h1r, hch⟩ := h
  have hstep : ((add_stream s nm dat 1).1).dir_entries =
      linkChild (s.dir_entries ++
        [DirEntry.mk nm 2 dat 1 (-1) (-1) (-1) (2 + s.stream_data.length / 512)])
        1 s.dir_entries.length := rfl
  rw [hstep]
  set newE : DirEntry :=
    DirEntry.mk nm 2 dat 1 (-1) (-1) (-1) (2 + s.stream_data.length / 512) with hnewE
  set es' : List DirEntry := s.dir_entries ++ [newE] with hes'
  have hlen' : es'.length = k + 5 := by
    rw [hes', List.length_append, hlen]
    rfl
  have hgetj : ∀ j, j < k + 4 → es'.getD j default = s.dir_entries.getD j default := by
    intro j hj
    rw [hes']
    exact getD_append_left _ _ j (by omega) _
  have hgetnew : es'.getD (k + 4) default = newE := by
    rw [hes', show k + 4 = s.dir_entries.length from hlen.symm]
    exact getD_append_length _ _ _
  have hlink : linkChild es' 1 s.dir_entries.length =
      es'.set (k + 3)
        { es'.getD (k + 3) default with right_sibling := ((k + 4 : Nat) : Int) } := by
    rw [linkChild]
    simp only []
    rw [hgetj 1 (by omega), h1c, if_neg (by decide)]
    have h2n : ((2 : Int)).toNat = 2 := rfl
    have hcast : (↑s.dir_entries.length : Int) = ((k + 4 : Nat) : Int) := by rw [hlen]
    rw [h2n, hlen', hcast]
    refine addSibling_chain es' _ (k + 5) (k + 3) 2 (by omega) (by rw [hlen']; omega)
      (by omega) ?_ ?_
    · intro j hj2 hj3
      rw [rightOf, hgetj j (by omega)]
      have hr := (hch j hj2 (by omega)).2.2
      rw [hr, if_neg (by omega)]
    · rw [rightOf, hgetj (k + 3) (by omega)]
      have hr := (hch (k + 3) (by omega) (by omega)).2.2
      rw [hr, if_pos rfl]
  rw [hlink]
  refine ⟨?_, ?_, ?_, ?_, ?_, ?_, ?_, ?_⟩
  · rw [List.length_set, hlen']
  · rw [getD_set_ne _ _ _ _ _ (by omega), hgetj 0 (by omega)]
    exact h0c
  · rw [getD_set_ne _ _ _ _ _ (by omega), hgetj 0 (by omega)]
    exact h0l
  · rw [getD_set_ne _ _ _ _ _ (by omega), hgetj 0 (by omega)]
    exact h0r
  · rw [getD_set_ne _ _ _ _ _ (by omega), hgetj 1 (by omega)]
    exact h1c
  · rw [getD_set_ne _ _ _ _ _ (by omega), hgetj 1 (by omega)]
    exact h1l
  · rw [getD_set_ne _ _ _ _ _ (by omega), hgetj 1 (by omega)]
    exact h1r
  · intro j hj2 hj5
    rcases (by omega : j < k + 3 ∨ j = k + 3 ∨ j = k + 4) with hj | hj | hj
    · rw [getD_set_ne _ _ _ _ _ (by omega), hgetj j (by omega)]
      obtain ⟨hc, hl, hr⟩ := hch j hj2 (by omega)
      refine ⟨hc, hl, ?_⟩
      rw [hr, if_neg (by omega), if_neg (by omega)]
    · subst hj
      rw [getD_set_self _ _ _ _ (by rw [hlen']; omega)]
      obtain ⟨hc, hl, _⟩ := hch (k + 3) (by omega) (by omega)
      refine ⟨?_, ?_, ?_⟩
      · show (es'.getD (k + 3) default).child = -1
        rw [hgetj (k + 3) (by omega)]
        exact hc
      · show (es'.getD (k + 3) default).left_sibling = -1
        rw [hgetj (k + 3) (by omega)]
        exact hl
      · show ((k + 4 : Nat) : Int) = if k + 3 = k + 1 + 3 then -1 else ((k + 3 : Nat) : Int) + 1
        rw [if_neg (by omega)]
        push_cast
        ring
    · subst hj
      rw [getD_set_ne _ _ _ _ _ (by omega), hgetnew, hnewE]
      refine ⟨rfl, rfl, ?_⟩
      show (-1 : Int) = if k + 4 = k + 1 + 3 then -1 else ((k + 4 : Nat) : Int) + 1
      rw [if_pos (by omega)]

theorem ChainInv_foldl (ms : List (String × String)) :
    ∀ (s : CFBState) (k : Nat), ChainInv s.dir_entries k →
      ChainInv ((ms.foldl
        (fun st m => (add_stream st m.1 (create_module_stream m.1 m.2) 1).1)
        s)).dir_entries (k + ms.length) := by
  induction ms with
  | nil => intro s k h; simpa using h
  | cons m ms ih =>
    intro s k h
    have h1 := ChainInv_add_stream s k m.1 (create_module_stream m.1 m.2) h
    have h2 := ih _ (k + 1) h1
    rw [List.foldl_cons]
    simpa [Nat.add_assoc, Nat.add_comm 1 ms.length] using h2

theorem ChainInv_base (d1 d2 : List Nat) :
    ChainInv ((add_stream ((add_stream ((add_storage (add_root
      { dir_entries := [], stream_data := [] }) "VBA" 0).1) "dir" d1 1).1)
      "_VBA_PROJECT" d2 1).1).dir_entries 0 := by
  refine ⟨rfl, rfl, rfl, rfl, rfl, rfl, rfl, ?_⟩
  intro j h2 h4
  interval_cases j
  · refine ⟨rfl, rfl, ?_⟩
    rw [if_neg (by omega)]
    rfl
  · refine ⟨rfl, rfl, ?_⟩
    rw [if_pos rfl]
    rfl

theorem addSibling_succ (entries : List DirEntry) (fuel sib : Nat) (new : Int) :
    addSibling entries (fuel + 1) sib new =
      if (entries.getD sib default).right_sibling = -1
      then entries.set sib { entries.getD sib default with right_sibling := new }
      else addSibling entries fuel ((entries.getD sib default).right_sibling).toNat new := rfl

theorem reachFrom_succ (links : List (Int × Int × Int)) (fuel : Nat) (i : Int) :
    reachFrom links (fuel + 1) i =
      if 0 ≤ i ∧ i.toNat < links.length then
        i.toNat :: (reachFrom links fuel (links.getD i.toNat (-1, -1, -1)).2.2 ++
          reachFrom links fuel (links.getD i.toNat (-1, -1, -1)).1 ++
          reachFrom links fuel (links.getD i.toNat (-1, -1, -1)).2.1)
      else [] := rfl

theorem reachFrom_neg (links : List (Int × Int × Int)) (fuel : Nat) (i : Int)
    (h : i < 0) : reachFrom links fuel i = [] := by
  cases fuel with
  | zero => rfl
  | succ fuel => rw [reachFrom_succ, if_neg (by omega)]

theorem linksOf_getD (es : List DirEntry) (i : Nat) (h : i < es.length) :
    (linksOf es).getD i (-1, -1, -1) = entryLinks (es.getD i default) := by
  induction es generalizing i with
  | nil => simp at h
  | cons e es ih =>
    match i with
    | 0 => rfl
    | i + 1 => exact ih i (by simp at h; omega)

theorem count_one_of_nodup_mem (l : List Nat) (hl : l.Nodup) (a : Nat) (ha : a ∈ l) :
    l.count a = 1 := by
  induction l with
  | nil => cases ha
  | cons b l ih =>
    rw [List.nodup_cons] at hl
    rw [List.count_cons]
    rcases List.mem_cons.mp ha with rfl | hmem
    · rw [List.count_eq_zero.mpr hl.1]
      simp
    · rw [ih hl.2 hmem]
      have hab : a ≠ b := fun hab => hl.1 (hab ▸ hmem)
      simp [Ne.symm hab]

theorem chain_final_count (s : CFBState) (n : Nat) (pn wn : String) (pd wd : List Nat)
    (h : ChainInv s.dir_entries n) :
    ∀ j, j < ((add_stream ((add_stream s pn pd 0).1) wn wd 0).1).dir_entries.length →
      (reachFrom (linksOf ((add_stream ((add_stream s pn pd 0).1) wn wd 0).1).dir_entries)
        (((add_stream ((add_stream s pn pd 0).1) wn wd 0).1).dir_entries.length + 1)
        0).count j = 1 := by
  simp only [ChainInv, childOf, leftOf, rightOf] at h
  obtain ⟨hlen, h0c, h0l, h0r, h1c, h1l, h1r, hch⟩ := h
  have hstep1 : ((add_stream s pn pd 0).1).dir_entries =
      linkChild (s.dir_entries ++
        [DirEntry.mk pn 2 pd 1 (-1) (-1) (-1) (2 + s.stream_data.length / 512)])
        0 s.dir_entries.length := rfl
  set P : DirEntry :=
    DirEntry.mk pn 2 pd 1 (-1) (-1) (-1) (2 + s.stream_data.length / 512) with hP
  set es1 : List DirEntry := s.dir_entries ++ [P] with hes1
  have hlen1 : es1.length = n + 5 := by
    rw [hes1, List.length_append, hlen]
    rfl
  have hget1j : ∀ j, j < n + 4 → es1.getD j default = s.dir_entries.getD j default := by
    intro j hj
    rw [hes1]
    exact getD_append_left _ _ j (by omega) _
  have hget1P : es1.getD (n + 4) default = P := by
    rw [hes1, show n + 4 = s.dir_entries.length from hlen.symm]
    exact getD_append_length _ _ _
  have hlink1 : linkChild es1 0 s.dir_entries.length =
      es1.set 1 { es1.getD 1 default with right_sibling := (s.dir_entries.length : Int) } := by
    rw [linkChild]
    simp only []
    rw [hget1j 0 (by omega), h0c, if_neg (by decide)]
    have h1n : ((1 : Int)).toNat = 1 := rfl
    rw [h1n, hlen1]
    refine addSibling_chain es1 _ (n + 5) 1 1 (Nat.le_refl 1) (by rw [hlen1]; omega)
      (by omega) ?_ ?_
    · intro j hj1 hj2
      omega
    · rw [rightOf, hget1j 1 (by omega)]
      exact h1r
  set R1 : DirEntry :=
    { es1.getD 1 default with right_sibling := (s.dir_entries.length : Int) } with hR1
  have hAdir : ((add_stream s pn pd 0).1).dir_entries = es1.set 1 R1 := by
    rw [hstep1, hlink1]
  have lenA : (es1.set 1 R1).length = n + 5 := by
    rw [List.length_set, hlen1]
  have hA0 : (es1.set 1 R1).getD 0 default = s.dir_entries.getD 0 default := by
    rw [getD_set_ne _ _ _ _ _ (by omega), hget1j 0 (by omega)]
  have hA1 : (es1.set 1 R1).getD 1 default = R1 :=
    getD_set_self _ _ _ _ (by rw [hlen1]; omega)
  have hAj : ∀ j, 2 ≤ j → j < n + 4 →
      (es1.set 1 R1).getD j default = s.dir_entries.getD j default := by
    intro j hj2 hj4
    rw [getD_set_ne _ _ _ _ _ (by omega), hget1j j (by omega)]
  have hAP : (es1.set 1 R1).getD (n + 4) default = P := by
    rw [getD_set_ne _ _ _ _ _ (by omega), hget1P]
  have hR1c : R1.child = ((2 : Nat) : Int) := by
    rw [hR1]
    show (es1.getD 1 default).child = ((2 : Nat) : Int)
    rw [hget1j 1 (by omega)]
    exact h1c
  have hR1l : R1.left_sibling = -1 := by
    rw [hR1]
    show (es1.getD 1 default).left_sibling = -1
    rw [hget1j 1 (by omega)]
    exact h1l
  have hR1r : R1.right_sibling = ((n + 4 : Nat) : Int) := by
    rw [hR1]
    show (s.dir_entries.length : Int) = ((n + 4 : Nat) : Int)
    rw [hlen]
  have hstep2 : ((add_stream ((add_stream s pn pd 0).1) wn wd 0).1).dir_entries =
      linkChild (((add_stream s pn pd 0).1).dir_entries ++
        [DirEntry.mk wn 2 wd 1 (-1) (-1) (-1)
          (2 + ((add_stream s pn pd 0).1).stream_data.length / 512)])
        0 ((add_stream s pn pd 0).1).dir_entries.length := rfl
  set W : DirEntry := DirEntry.mk wn 2 wd 1 (-1) (-1) (-1)
    (2 + ((add_stream s pn pd 0).1).stream_data.length / 512) with hW
  rw [hAdir, lenA] at hstep2
  set es2 : List DirEntry := es1.set 1 R1 ++ [W] with hes2
  have hlen2 : es2.length = n + 6 := by
    rw [hes2, List.length_append, lenA]
    rfl
  have hget2j : ∀ j, j < n + 5 → es2.getD j default = (es1.set 1 R1).getD j default := by
    intro j hj
    rw [hes2]
    exact getD_append_left _ _ j (by rw [lenA]; omega) _
  have hget2W : es2.getD (n + 5) default = W := by
    rw [hes2, show n + 5 = (es1.set 1 R1).length from lenA.symm]
    exact getD_append_length _ _ _
  have hlink2 : linkChild es2 0 (n + 5) =
      es2.set (n + 4)
        { es2.getD (n + 4) default with right_sibling := ((n + 5 : Nat) : Int) } := by
    rw [linkChild]
    simp only []
    rw [hget2j 0 (by omega), hA0, h0c, if_neg (by decide)]
    have h1n : ((1 : Int)).toNat = 1 := rfl
    rw [h1n, hlen2]
    rw [show n + 6 = (n + 5) + 1 from rfl, addSibling_succ]
    have hr1 : (es2.getD 1 default).right_sibling = ((n + 4 : Nat) : Int) := by
      rw [hget2j 1 (by omega), hA1, hR1r]
    rw [hr1, if_neg (by omega)]
    have htn : ((n + 4 : Nat) : Int).toNat = n + 4 := by omega
    rw [htn]
    rw [show n + 5 = (n + 4) + 1 from rfl, addSibling_succ]
    have hr4 : (es2.getD (n + 4) default).right_sibling = -1 := by
      rw [hget2j (n + 4) (by omega), hAP, hP]
    rw [if_pos hr4]
  set R2 : DirEntry :=
    { es2.getD (n + 4) default with right_sibling := ((n + 5 : Nat) : Int) } with hR2
  have hBdir : ((add_stream ((add_stream s pn pd 0).1) wn wd 0).1).dir_entries =
      es2.set (n + 4) R2 := by
    rw [hstep2, hlink2]
  have lenE : (es2.set (n + 4) R2).length = n + 6 := by
    rw [List.length_set, hlen2]
  have e0 : (es2.set (n + 4) R2).getD 0 default = s.dir_entries.getD 0 default := by
    rw [getD_set_ne _ _ _ _ _ (by omega), hget2j 0 (by omega), hA0]
  have e1 : (es2.set (n + 4) R2).getD 1 default = R1 := by
    rw [getD_set_ne _ _ _ _ _ (by omega), hget2j 1 (by omega), hA1]
  have ej : ∀ j, 2 ≤ j → j < n + 4 →
      (es2.set (n + 4) R2).getD j default = s.dir_entries.getD j default := by
    intro j hj2 hj4
    rw [getD_set_ne _ _ _ _ _ (by omega), hget2j j (by omega), hAj j hj2 hj4]
  have e4 : (es2.set (n + 4) R2).getD (n + 4) default = R2 :=
    getD_set_self _ _ _ _ (by rw [hlen2]; omega)
  have e5 : (es2.set (n + 4) R2).getD (n + 5) default = W := by
    rw [getD_set_ne _ _ _ _ _ (by omega), hget2W]
  have hR2c : R2.child = -1 := by
    rw [hR2]
    show (es2.getD (n + 4) default).child = -1
    rw [hget2j (n + 4) (by omega), hAP, hP]
  have hR2l : R2.left_sibling = -1 := by
    rw [hR2]
    show (es2.getD (n + 4) default).left_sibling = -1
    rw [hget2j (n + 4) (by omega), hAP, hP]
  have hR2r : R2.right_sibling = ((n + 5 : Nat) : Int) := by
    rw [hR2]
  rw [hBdir]
  set L : List (Int × Int × Int) := linksOf (es2.set (n + 4) R2) with hLdef
  have hLlen : L.length = n + 6 := by
    rw [hLdef, linksOf, List.length_map, lenE]
  have hLget : ∀ i, i < n + 6 → L.getD i (-1, -1, -1) =
      entryLinks ((es2.set (n + 4) R2).getD i default) := by
    intro i hi
    rw [hLdef]
    exact linksOf_getD _ _ (by rw [lenE]; omega)
  have hL0 : L.getD 0 (-1, -1, -1) = (-1, -1, ((1 : Nat) : Int)) := by
    rw [hLget 0 (by omega), e0, entryLinks, h0l, h0r, h0c]
    rfl
  have hL1 : L.getD 1 (-1, -1, -1) = (-1, ((n + 4 : Nat) : Int), ((2 : Nat) : Int)) := by
    rw [hLget 1 (by omega), e1, entryLinks, hR1l, hR1r, hR1c]
  have hLj : ∀ j, 2 ≤ j → j < n + 4 → L.getD j (-1, -1, -1) =
      (-1, (if j = n + 3 then (-1 : Int) else ((j + 1 : Nat) : Int)), -1) := by
    intro j hj2 hj4
    obtain ⟨hc, hl, hr⟩ := hch j hj2 hj4
    rw [hLget j (by omega), ej j hj2 hj4, entryLinks, hl, hr, hc]
    by_cases hj3 : j = n + 3
    · rw [if_pos hj3, if_pos hj3]
    · rw [if_neg hj3, if_neg hj3]
      norm_num
  have hL4 : L.getD (n + 4) (-1, -1, -1) = (-1, ((n + 5 : Nat) : Int), -1) := by
    rw [hLget (n + 4) (by omega), e4, entryLinks, hR2l, hR2r, hR2c]
  have hL5 : L.getD (n + 5) (-1, -1, -1) = (-1, -1, -1) := by
    rw [hLget (n + 5) (by omega), e5, entryLinks, hW]
  rw [lenE]
  have hreach_chain : ∀ fuel j, 2 ≤ j → j < n + 4 → n + 3 - j < fuel →
      reachFrom L fuel ((j : Nat) : Int) = List.range' j (n + 4 - j) := by
    intro fuel
    induction fuel with
    | zero =>
      intro j _ _ hf
      omega
    | succ fuel ih =>
      intro j hj2 hj4 hf
      rw [reachFrom_succ,
        if_pos (show (0 : Int) ≤ ((j : Nat) : Int) ∧ ((j : Nat) : Int).toNat < L.length from
          ⟨by omega, by rw [hLlen]; omega⟩)]
      have htj : ((j : Nat) : Int).toNat = j := by omega
      rw [htj, hLj j hj2 hj4]
      rw [show ((-1 : Int), (if j = n + 3 then (-1 : Int) else ((j + 1 : Nat) : Int)),
        (-1 : Int)).2.2 = (-1 : Int) from rfl]
      rw [show ((-1 : Int), (if j = n + 3 then (-1 : Int) else ((j + 1 : Nat) : Int)),
        (-1 : Int)).1 = (-1 : Int) from rfl]
      rw [show ((-1 : Int), (if j = n + 3 then (-1 : Int) else ((j + 1 : Nat) : Int)),
        (-1 : Int)).2.1 = (if j = n + 3 then (-1 : Int) else ((j + 1 : Nat) : Int)) from rfl]
      rw [reachFrom_neg _ _ _ (by omega)]
      simp only [List.nil_append, List.append_nil]
      by_cases hj3 : j = n + 3
      · subst hj3
        rw [if_pos rfl, reachFrom_neg _ _ _ (by omega)]
        rw [show n + 4 - (n + 3) = 1 from by omega, List.range'_one]
      · rw [if_neg hj3, ih (j + 1) (by omega) (by omega) (by omega)]
        rw [show n + 4 - j = (n + 4 - (j + 1)) + 1 from by omega, List.range'_succ]
  have hreach5 : ∀ fuel, 0 < fuel → reachFrom L fuel ((n + 5 : Nat) : Int) = [n + 5] := by
    intro fuel hf
    obtain ⟨f1, rfl⟩ : ∃ f1, fuel = f1 + 1 := ⟨fuel - 1, by omega⟩
    rw [reachFrom_succ,
      if_pos (show (0 : Int) ≤ ((n + 5 : Nat) : Int) ∧
        ((n + 5 : Nat) : Int).toNat < L.length from ⟨by omega, by rw [hLlen]; omega⟩)]
    have ht : ((n + 5 : Nat) : Int).toNat = n + 5 := by omega
    rw [ht, hL5]
    show (n + 5) :: (reachFrom L f1 (-1) ++ reachFrom L f1 (-1) ++ reachFrom L f1 (-1)) =
      [n + 5]
    rw [reachFrom_neg _ _ _ (by omega : (-1 : Int) < 0)]
    rfl
  have hreach4 : ∀ fuel, 2 ≤ fuel → reachFrom L fuel ((n + 4 : Nat) : Int) =
      [n + 4, n + 5] := by
    intro fuel hf
    obtain ⟨f1, rfl⟩ : ∃ f1, fuel = f1 + 1 := ⟨fuel - 1, by omega⟩
    rw [reachFrom_succ,
      if_pos (show (0 : Int) ≤ ((n + 4 : Nat) : Int) ∧
        ((n + 4 : Nat) : Int).toNat < L.length from ⟨by omega, by rw [hLlen]; omega⟩)]
    have ht : ((n + 4 : Nat) : Int).toNat = n + 4 := by omega
    rw [ht, hL4]
    rw [show ((-1 : Int), ((n + 5 : Nat) : Int), (-1 : Int)).2.2 = (-1 : Int) from rfl]
    rw [show ((-1 : Int), ((n + 5 : Nat) : Int), (-1 : Int)).1 = (-1 : Int) from rfl]
    rw [show ((-1 : Int), ((n + 5 : Nat) : Int), (-1 : Int)).2.1 =
      ((n + 5 : Nat) : Int) from rfl]
    rw [reachFrom_neg _ _ _ (by omega), hreach5 f1 (by omega)]
    rfl
  have hR : ∀ f2, n + 2 ≤ f2 → reachFrom L (f2 + 1 + 1) 0 =
      0 :: 1 :: (List.range' 2 (n + 2) ++ [n + 4, n + 5]) := by
    intro f2 hf
    rw [reachFrom_succ,
      if_pos (show (0 : Int) ≤ 0 ∧ (0 : Int).toNat < L.length from
        ⟨by omega, by rw [hLlen]; omega⟩)]
    rw [show ((0 : Int)).toNat = 0 from rfl, hL0]
    show 0 :: (reachFrom L (f2 + 1) ((1 : Nat) : Int) ++ reachFrom L (f2 + 1) (-1) ++
      reachFrom L (f2 + 1) (-1)) = 0 :: 1 :: (List.range' 2 (n + 2) ++ [n + 4, n + 5])
    rw [reachFrom_neg _ _ _ (by omega : (-1 : Int) < 0)]
    rw [reachFrom_succ,
      if_pos (show (0 : Int) ≤ ((1 : Nat) : Int) ∧ ((1 : Nat) : Int).toNat < L.length from
        ⟨by omega, by rw [hLlen]; omega⟩)]
    rw [show (((1 : Nat) : Int)).toNat = 1 from rfl, hL1]
    show 0 :: ((1 :: (reachFrom L f2 ((2 : Nat) : Int) ++ reachFrom L f2 (-1) ++
      reachFrom L f2 ((n + 4 : Nat) : Int))) ++ [] ++ []) =
      0 :: 1 :: (List.range' 2 (n + 2) ++ [n + 4, n + 5])
    rw [reachFrom_neg _ _ _ (by omega : (-1 : Int) < 0)]
    rw [hreach_chain f2 2 (by omega) (by omega) (by omega)]
    rw [hreach4 f2 (by omega)]
    rw [show n + 4 - 2 = n + 2 from by omega]
    simp only [List.nil_append, List.append_nil]
  rw [show n + 6 + 1 = n + 5 + 1 + 1 from rfl, hR (n + 5) (by omega)]
  intro j hj
  apply count_one_of_nodup_mem
  · refine List.nodup_cons.mpr ⟨?_, List.nodup_cons.mpr ⟨?_, ?_⟩⟩
    · intro hmem
      rcases List.mem_cons.mp hmem with h | h
      · omega
      · rcases List.mem_append.mp h with h | h
        · rw [List.mem_range'_1] at h
          omega
        · rcases List.mem_cons.mp h with h | h
          · omega
          · rcases List.mem_cons.mp h with h | h
            · omega
            · cases h
    · intro hmem
      rcases List.mem_append.mp hmem with h | h
      · rw [List.mem_range'_1] at h
        omega
      · rcases List.mem_cons.mp h with h | h
        · omega
        · rcases List.mem_cons.mp h with h | h
          · omega
          · cases h
    · refine List.Nodup.append (List.nodup_range' _ _) ?_ ?_
      · refine List.nodup_cons.mpr ⟨?_, List.nodup_singleton _⟩
        intro hmem
        rcases List.mem_cons.mp hmem with h | h
        · omega
        · cases h
      · intro a ha hb
        rw [List.mem_range'_1] at ha
        rcases List.mem_cons.mp hb with h | h
        · omega
        · rcases List.mem_cons.mp h with h | h
          · omega
          · cases h
  · simp only [List.mem_cons, List.mem_append, List.mem_range'_1, List.not_mem_nil, or_false]
    omega

/-- C6 (amended): in every container built by `CFBFile`
(create_vba_binary.py) every directory entry -- Root, the `VBA` storage and
all stream entries -- is reachable from the Root entry via child/sibling
pointers exactly once: a full traversal from entry 0 visits each index
exactly once.  The claim fails for `_build_directory_entries` of
tools/vba_project_generator.py, which orphans every entry after the first
stream entry (see the counterexample). -/
theorem c6_reachability_amended (ms : List (String × String)) (guid : String) :
    ∀ j, j < (buildState ms guid).dir_entries.length →
      (reachFrom (linksOf (buildState ms guid).dir_entries)
        ((buildState ms guid).dir_entries.length + 1) 0).count j = 1 := by
  have hbase := ChainInv_base (create_dir_stream ms) create_vba_project_stream
  have hfold := ChainInv_foldl ms _ 0 hbase
  exact chain_final_count _ (0 + ms.length) "PROJECT" "PROJECTwm"
    (create_project_stream ms guid) (create_projectwm_stream ms) hfold

theorem c6_reachability_amended_witness :
    0 < (buildState [] guid0).dir_entries.length ∧
    (reachFrom (linksOf (buildState [] guid0).dir_entries)
      ((buildState [] guid0).dir_entries.length + 1) 0).count 0 = 1 :=
  ⟨by decide, c6_reachability_amended [] guid0 0 (by decide)⟩

/-- C6 counterexample: in the directory built by `_build_directory_entries`
(tools/vba_project_generator.py) for the standard five streams, entry 3
(the `_VBA_PROJECT` stream entry) is a Stream entry (object type 2) that a
traversal from Root never reaches: it is orphaned, contradicting the claim
for this builder. -/
theorem c6_reachability_counterexample :
    ((pg_build_directory_entries
      [("VBA/dir", [1]), ("VBA/_VBA_PROJECT", [1]), ("VBA/Module1", [1]),
       ("PROJECT", [1]), ("PROJECTwm", [1])]).getD 3 default).etype = 2 ∧
    (reachFrom (pgLinks (pg_build_directory_entries
      [("VBA/dir", [1]), ("VBA/_VBA_PROJECT", [1]), ("VBA/Module1", [1]),
       ("PROJECT", [1]), ("PROJECTwm", [1])]))
      ((pg_build_directory_entries
        [("VBA/dir", [1]), ("VBA/_VBA_PROJECT", [1]), ("VBA/Module1", [1]),
         ("PROJECT", [1]), ("PROJECTwm", [1])]).length + 1) 0).count 3 = 0 := by
  decide
